import Mathlib

/-!
Verification of the instruction-generation and structured-text
synchronization engine of the MzansiMed pharmacist portal
(src/pharmacist-portal/src/pages/AddMedicationPage.tsx).

Text is modelled as a list of Unicode scalar characters (Str).  This
matches JavaScript string semantics for every operation the engine
performs (split on a newline, trim, prefix tests, literal substring
search and replacement): none of the operations used here can cut a
surrogate pair, so the scalar-value view is faithful.
-/

namespace MzansiMed

abbrev Str := List Char

/-- Character data of a string literal. -/
def str (s : String) : Str := s.data

/-- JavaScript whitespace test for the characters that can occur here. -/
def isWS (c : Char) : Bool := c == ' ' || c == '\t' || c == '\n' || c == '\r'

/-- JS String.prototype.trimStart. -/
def trimStart (s : Str) : Str := s.dropWhile isWS

/-- JS String.prototype.trimEnd. -/
def trimEnd (s : Str) : Str := (s.reverse.dropWhile isWS).reverse

/-- JS String.prototype.trim. -/
def trim (s : Str) : Str := trimEnd (trimStart s)

/-- Split on the newline character, the semantics of JS split('\n'):
the empty string yields one empty line, a trailing newline yields a
trailing empty line. -/
def splitNL : Str → List Str
  | [] => [[]]
  | c :: cs =>
    if c = '\n' then [] :: splitNL cs
    else
      match splitNL cs with
      | [] => [[c]]
      | l :: ls => (c :: l) :: ls

/-- JS String.prototype.includes: literal substring occurrence test. -/
def occursB (pat : Str) : Str → Bool
  | [] => pat.isEmpty
  | c :: t => pat.isPrefixOf (c :: t) || occursB pat t

/-- JS String.prototype.endsWith for a literal suffix. -/
def endsWithB (suf s : Str) : Bool := suf.isSuffixOf s

/-- ASCII lower-casing of one character, the effect of JS toLowerCase
on the characters the engine lower-cases. -/
def lowerChar (c : Char) : Char :=
  if 'A' ≤ c ∧ c ≤ 'Z' then Char.ofNat (c.toNat + 32) else c

/-- JS String.prototype.toLowerCase restricted to ASCII letters. -/
def lowerStr (s : Str) : Str := s.map lowerChar

/-- JS word-character class backslash-w: ASCII letters, digits, underscore. -/
def isWordChar (c : Char) : Bool :=
  ('a' ≤ c ∧ c ≤ 'z') || ('A' ≤ c ∧ c ≤ 'Z') || ('0' ≤ c ∧ c ≤ '9') || c == '_'

/-- charAt(0).toUpperCase() + slice(1), as used on the translated verb. -/
def capFirst (s : Str) : Str :=
  match s with
  | [] => []
  | c :: t => (if 'a' ≤ c ∧ c ≤ 'z' then Char.ofNat (c.toNat - 32) else c) :: t

/-! ## Data model (interfaces MedicationForm, InstructionStructure,
InstructionDisplay of AddMedicationPage.tsx) -/

structure MedicationForm where
  name : Str
  dosage : Str
  frequency : Str
  interval : Str
  timeOfDay : Str
  precautions : List Str
  deriving DecidableEq, Repr

structure Sections where
  medicationName : Str
  dosageLine : Str
  dosageLineUserContent : Str
  timeOfDay : Str
  precautionsHeader : Str
  precautionsList : List Str
  deriving DecidableEq, Repr

structure UserContent where
  beforeMedication : Str
  afterMedication : Str
  afterDosage : Str
  afterTimeOfDay : Str
  afterPrecautions : Str
  deriving DecidableEq, Repr

structure LastGenerated where
  english : Str
  translated : Str
  deriving DecidableEq, Repr

structure InstructionStructure where
  sections : Sections
  userContent : UserContent
  lastGenerated : LastGenerated
  deriving DecidableEq, Repr

structure InstructionDisplay where
  english : Str
  translated : Str
  selectedLanguage : Str
  deriving DecidableEq, Repr

def emptySections : Sections :=
  { medicationName := [], dosageLine := [], dosageLineUserContent := []
    timeOfDay := [], precautionsHeader := [], precautionsList := [] }

def emptyUserContent : UserContent :=
  { beforeMedication := [], afterMedication := [], afterDosage := []
    afterTimeOfDay := [], afterPrecautions := [] }

def emptyStructure : InstructionStructure :=
  { sections := emptySections, userContent := emptyUserContent
    lastGenerated := { english := [], translated := [] } }

/-! ## Instruction parser (parseInstructionContent) -/

inductive Cursor where
  | beforeMedication | afterMedication | afterDosage | afterTimeOfDay | precautions
  deriving DecidableEq, Repr

structure ParseState where
  struct : InstructionStructure
  cursor : Cursor
  medicationNameFound : Bool
  precautionsStarted : Bool
  deriving DecidableEq, Repr

def initParseState : ParseState :=
  { struct := emptyStructure, cursor := .beforeMedication
    medicationNameFound := false, precautionsStarted := false }

/-- The marker glyph of the dosage line (U+2139 U+FE0F). -/
def infoMarker : Str := str "ℹ️"

/-- The marker glyph of the time-of-day line (U+1F55C). -/
def clockMarker : Str := str "🕜"

/-- The recognized spellings of the precautions header, lower-cased,
from the regex in parseInstructionContent. -/
def headerWords : List Str :=
  [str "precautions", str "voorsorgmaatreëls", str "ukulumkela", str "ukuqaphela"]

/-- The case-insensitive exact match of the precautions-header regex. -/
def isPrecautionsHeader (t : Str) : Bool := headerWords.contains (lowerStr t)

/-- The newline-joined append used for every user-content slot:
slot += (slot ? the newline : the empty string) + line. -/
def appendJoin (slot line : Str) : Str :=
  slot ++ (if slot = [] then [] else ['\n']) ++ line

/-- Which user-content slot a cursor position selects. -/
def getSlot (c : Cursor) (u : UserContent) : Str :=
  match c with
  | .beforeMedication => u.beforeMedication
  | .afterMedication => u.afterMedication
  | .afterDosage => u.afterDosage
  | .afterTimeOfDay => u.afterTimeOfDay
  | .precautions => u.afterPrecautions

/-- The fall-through branch of the parser: append the raw line to the
user-content slot of the current cursor position.  The final branch is
guarded by precautionsStarted exactly as in the source. -/
def appendToCursor (st : ParseState) (line : Str) : ParseState :=
  let u := st.struct.userContent
  if st.cursor = .beforeMedication then
    { st with struct.userContent.beforeMedication := appendJoin u.beforeMedication line }
  else if st.cursor = .afterMedication then
    { st with struct.userContent.afterMedication := appendJoin u.afterMedication line }
  else if st.cursor = .afterDosage then
    { st with struct.userContent.afterDosage := appendJoin u.afterDosage line }
  else if st.cursor = .afterTimeOfDay then
    { st with struct.userContent.afterTimeOfDay := appendJoin u.afterTimeOfDay line }
  else if st.precautionsStarted then
    { st with struct.userContent.afterPrecautions := appendJoin u.afterPrecautions line }
  else st

/-- One step of parseInstructionContent, the body of the forEach over
the lines of the input. -/
def parseLine (st : ParseState) (line : Str) : ParseState :=
  let t := trim line
  if t ≠ [] then
    if ¬ st.medicationNameFound ∧ st.cursor = .beforeMedication then
      { st with struct.sections.medicationName := t
                medicationNameFound := true
                cursor := .afterMedication }
    else if infoMarker.isPrefixOf t then
      let pre := t.takeWhile (· ≠ '.')
      let rest := t.dropWhile (· ≠ '.')
      match rest with
      | _ :: r =>
        let afterPeriod := trimStart r
        let st' := { st with struct.sections.dosageLine := pre ++ ['.'] }
        let st'' :=
          if afterPeriod ≠ [] then
            { st' with struct.sections.dosageLineUserContent := afterPeriod }
          else st'
        { st'' with cursor := .afterDosage }
      | [] =>
        { st with struct.sections.dosageLine := t, cursor := .afterDosage }
    else if clockMarker.isPrefixOf t then
      { st with struct.sections.timeOfDay := t, cursor := .afterTimeOfDay }
    else if isPrecautionsHeader t then
      { st with struct.sections.precautionsHeader := t
                precautionsStarted := true
                cursor := .precautions }
    else if st.precautionsStarted ∧ ['•'].isPrefixOf t then
      { st with struct.sections.precautionsList :=
          st.struct.sections.precautionsList ++ [t] }
    else appendToCursor st line
  else appendToCursor st line

/-- parseInstructionContent: decompose an instruction text into
generated sections and user content.  (The isTranslated flag of the
source is unused in the function body and therefore omitted.) -/
def parseInstructionContent (content : Str) : InstructionStructure :=
  ((splitNL content).foldl parseLine initParseState).struct

/-! ## Instruction reassembly (reconstructInstructionContent) -/

/-- Stage 1 of reconstructInstructionContent: user content before the
medication name plus its separator. -/
def reconC1 (s : InstructionStructure) : Str :=
  if s.userContent.beforeMedication ≠ [] then
    s.userContent.beforeMedication ++
      (if ¬ endsWithB ['\n'] s.userContent.beforeMedication ∧
          s.sections.medicationName ≠ [] then ['\n'] else [])
  else []

/-- Stage 2: the medication name line. -/
def reconC2 (s : InstructionStructure) : Str :=
  if s.sections.medicationName ≠ [] then
    reconC1 s ++ s.sections.medicationName ++
      (if s.userContent.afterMedication ≠ [] ∨ s.sections.dosageLine ≠ []
       then ['\n'] else [])
  else reconC1 s

/-- Stage 3: user content after the medication name. -/
def reconC3 (s : InstructionStructure) : Str :=
  if s.userContent.afterMedication ≠ [] then
    reconC2 s ++ s.userContent.afterMedication ++
      (if ¬ endsWithB ['\n'] s.userContent.afterMedication ∧
          s.sections.dosageLine ≠ [] then ['\n'] else [])
  else reconC2 s

/-- Stage 4: the dosage line with its inline user content. -/
def reconC4 (s : InstructionStructure) : Str :=
  if s.sections.dosageLine ≠ [] then
    reconC3 s ++ s.sections.dosageLine ++
      (if s.sections.dosageLineUserContent ≠ []
       then [' '] ++ s.sections.dosageLineUserContent else []) ++
      (if s.userContent.afterDosage ≠ [] ∨ s.sections.timeOfDay ≠ []
       then ['\n'] else [])
  else reconC3 s

/-- Stage 5: user content after the dosage line. -/
def reconC5 (s : InstructionStructure) : Str :=
  if s.userContent.afterDosage ≠ [] then
    reconC4 s ++ s.userContent.afterDosage ++
      (if ¬ endsWithB ['\n'] s.userContent.afterDosage ∧
          s.sections.timeOfDay ≠ [] then ['\n'] else [])
  else reconC4 s

/-- Stage 6: the time-of-day line. -/
def reconC6 (s : InstructionStructure) : Str :=
  if s.sections.timeOfDay ≠ [] then
    reconC5 s ++ s.sections.timeOfDay ++
      (if s.userContent.afterTimeOfDay ≠ [] ∨ s.sections.precautionsHeader ≠ [] ∨
          s.sections.precautionsList ≠ [] then ['\n'] else [])
  else reconC5 s

/-- Stage 7: user content after the time-of-day line. -/
def reconC7 (s : InstructionStructure) : Str :=
  if s.userContent.afterTimeOfDay ≠ [] then
    reconC6 s ++ s.userContent.afterTimeOfDay ++
      (if ¬ endsWithB ['\n'] s.userContent.afterTimeOfDay ∧
          (s.sections.precautionsHeader ≠ [] ∨ s.sections.precautionsList ≠ [])
       then ['\n'] else [])
  else reconC6 s

/-- Stage 8: the precautions block, preceded by a blank line when the
accumulated content does not already end in one. -/
def reconC8 (s : InstructionStructure) : Str :=
  if s.sections.precautionsHeader ≠ [] ∨ s.sections.precautionsList ≠ [] then
    (if reconC7 s ≠ [] ∧ ¬ endsWithB ['\n', '\n'] (reconC7 s)
     then reconC7 s ++ ['\n'] else reconC7 s) ++
    (if s.sections.precautionsHeader ≠ []
     then s.sections.precautionsHeader ++ ['\n'] else []) ++
    (s.sections.precautionsList.map (fun p => p ++ ['\n'])).flatten
  else reconC7 s

/-- reconstructInstructionContent: rebuild the full text from a
structure, transcribed condition for condition from the source; each
accumulation step of the source is one named stage. -/
def reconstructInstructionContent (s : InstructionStructure) : Str :=
  reconC8 s ++ s.userContent.afterPrecautions

/-! ## Instruction composer (generateInstruction, formatTimeOfDay) -/

/-- The time periods and their emoji, in the fixed iteration order of
the timeEmojis object in formatTimeOfDay. -/
def timeEmojis : List (Str × Str) :=
  [(str "morning", str "🌅"), (str "afternoon", str "☀️"),
   (str "evening", str "🌆"), (str "night", str "🌃")]

/-- formatTimeOfDay: render each recognized period found
case-insensitively in the field as period-name plus emoji, joined with
a comma; fall back to the lower-cased raw input when none matches. -/
def formatTimeOfDay (timeOfDayText : Str) : Str :=
  let lowerText := lowerStr timeOfDayText
  let foundTimes := timeEmojis.filterMap fun pe =>
    if occursB pe.1 lowerText then some (pe.1 ++ [' '] ++ pe.2) else none
  if foundTimes = [] then lowerText
  else List.intercalate (str ", ") foundTimes

/-- The placeholder shown in the translated pane before any
translation exists. -/
def placeholderText : Str := str "This will have the translated instructions"

/-- The outcome of one call of generateInstruction: reset of display
and structure, no update, or newly generated structure and English
text. -/
inductive GenResult where
  | reset
  | noop
  | gen (s : InstructionStructure) (english : Str)
  deriving DecidableEq, Repr

/-- The name with any comma-and-suffix truncated: split(',')[0]. -/
def cleanName (n : Str) : Str := n.takeWhile (· ≠ ',')

/-- generateInstruction, the English-side part: the guard on the three
required fields, then recomposition of the generated sections over the
user content recovered by parsing the current English text. -/
def generateInstruction (f : MedicationForm) (currentEnglish : Str) : GenResult :=
  if f.name = [] ∧ f.dosage = [] ∧ f.frequency = [] then .reset
  else if f.name = [] ∨ f.dosage = [] ∨ f.frequency = [] then .noop
  else
    let currentStructure := parseInstructionContent currentEnglish
    let cleanMedicationName := cleanName f.name
    let intervalText : Str := if f.interval ≠ [] then [' '] ++ lowerStr f.interval else []
    let newDosageLine :=
      str "ℹ️ Take " ++ f.dosage ++ [' '] ++ lowerStr f.frequency ++ intervalText ++ ['.']
    let newTimeOfDay : Str :=
      if f.timeOfDay ≠ [] then str "🕜 " ++ formatTimeOfDay f.timeOfDay else []
    let newPrecautionsHeader : Str := if f.precautions ≠ [] then str "Precautions" else []
    let newPrecautionsList := f.precautions.map fun p => str "• " ++ p
    let updatedStructure : InstructionStructure :=
      { sections :=
          { medicationName := cleanMedicationName
            dosageLine := newDosageLine
            dosageLineUserContent := currentStructure.sections.dosageLineUserContent
            timeOfDay := newTimeOfDay
            precautionsHeader := newPrecautionsHeader
            precautionsList := newPrecautionsList }
        userContent := currentStructure.userContent
        lastGenerated := { english := [], translated := [] } }
    let newInstructionContent := reconstructInstructionContent updatedStructure
    .gen { updatedStructure with lastGenerated.english := newInstructionContent }
      newInstructionContent

/-- The effect of a GenResult on the display and retained structure:
reset clears both and shows the placeholder, noop leaves them
untouched, gen installs the new English text and structure. -/
def applyGenResult (r : GenResult) (d : InstructionDisplay) (s : InstructionStructure) :
    InstructionDisplay × InstructionStructure :=
  match r with
  | .reset => ({ d with english := [], translated := placeholderText }, emptyStructure)
  | .noop => (d, s)
  | .gen s' e => ({ d with english := e }, s')

/-! ## Selective field clearing (handleFieldClearing) -/

inductive FormField where
  | name | dosage | frequency | interval | timeOfDay | precautions
  deriving DecidableEq, Repr

/-- handleFieldClearing, the structure part: blank the section(s)
mapped to the cleared field; none when no mapped section holds content
(no update is performed then). -/
def handleFieldClearing (field : FormField) (s : InstructionStructure) :
    Option InstructionStructure :=
  match field with
  | .name =>
    if s.sections.medicationName ≠ [] then
      some { s with sections.medicationName := [] }
    else none
  | .dosage | .frequency | .interval =>
    if s.sections.dosageLine ≠ [] then
      some { s with sections.dosageLine := [] }
    else none
  | .timeOfDay =>
    if s.sections.timeOfDay ≠ [] then
      some { s with sections.timeOfDay := [] }
    else none
  | .precautions =>
    if s.sections.precautionsHeader ≠ [] ∨ s.sections.precautionsList ≠ [] then
      some { s with sections.precautionsHeader := [], sections.precautionsList := [] }
    else none

/-! ## Direct text edit (handleInstructionChange, structure update) -/

/-- The structure update of handleInstructionChange on an edit of the
English text: user content is taken from the parse of the new text,
generated sections only where the parse found them non-empty, the
previous generated value otherwise. -/
def handleInstructionChange (prev : InstructionStructure) (newContent : Str) :
    InstructionStructure :=
  let n := parseInstructionContent newContent
  { prev with
    userContent := n.userContent
    sections :=
      { prev.sections with
        medicationName :=
          if n.sections.medicationName ≠ [] then n.sections.medicationName
          else prev.sections.medicationName
        dosageLine :=
          if n.sections.dosageLine ≠ [] then n.sections.dosageLine
          else prev.sections.dosageLine
        timeOfDay :=
          if n.sections.timeOfDay ≠ [] then n.sections.timeOfDay
          else prev.sections.timeOfDay
        precautionsHeader :=
          if n.sections.precautionsHeader ≠ [] then n.sections.precautionsHeader
          else prev.sections.precautionsHeader
        precautionsList :=
          if n.sections.precautionsList ≠ [] then n.sections.precautionsList
          else prev.sections.precautionsList } }

/-! ## Translation substitution (generateTranslation) -/

/-- JS String.prototype.replace with a string pattern: replace the
first literal occurrence only. -/
def replaceFirst (pat repl : Str) : Str → Str
  | [] => if pat.isPrefixOf ([] : Str) then repl else []
  | c :: t =>
    if pat.isPrefixOf (c :: t) then repl ++ (c :: t).drop pat.length
    else c :: replaceFirst pat repl t

/-- Does the position after a match satisfy a trailing word boundary,
the pattern ending in a word character? -/
def postBoundary (rest : Str) : Bool :=
  match rest with
  | [] => true
  | c :: _ => ¬ isWordChar c

/-- Scanner for a global regex replace of a literal pattern with a
trailing word-boundary (the pattern ends in a word character), as in
the replacement of the marked verb.  Fuel is the length of the
scanned text; matches are non-overlapping and scanned left to right. -/
def raPost (pat repl : Str) : Nat → Str → Str
  | _, [] => []
  | 0, s => s
  | fuel + 1, c :: t =>
    if pat.isPrefixOf (c :: t) ∧ postBoundary ((c :: t).drop pat.length) then
      repl ++ raPost pat repl fuel ((c :: t).drop pat.length)
    else c :: raPost pat repl fuel t

def replaceAllPost (pat repl s : Str) : Str := raPost pat repl s.length s

/-- Does the character before a match satisfy a leading word boundary,
the pattern starting with a word character? -/
def preBoundary (prev : Option Char) : Bool :=
  match prev with
  | none => true
  | some p => ¬ isWordChar p

/-- Scanner for a global regex replace of a literal word with word
boundaries on both sides, as in the replacement of the precautions
header word. -/
def raBoth (pat repl : Str) : Nat → Option Char → Str → Str
  | _, _, [] => []
  | 0, _, s => s
  | fuel + 1, prev, c :: t =>
    if pat.isPrefixOf (c :: t) ∧ preBoundary prev ∧
       postBoundary ((c :: t).drop pat.length) then
      repl ++ raBoth pat repl fuel pat.getLast? ((c :: t).drop pat.length)
    else c :: raBoth pat repl fuel (some c) t

def replaceAllBoth (pat repl s : Str) : Str := raBoth pat repl s.length none s

/-- Case-insensitive match of a lower-case literal pattern at the head
of the text. -/
def ciPrefix (pat s : Str) : Bool :=
  pat.length ≤ s.length ∧ lowerStr (s.take pat.length) = pat

/-- Scanner for a global case-insensitive regex replace of a literal
lower-case word without boundaries, as in the replacement of the
time-of-day period words. -/
def raCI (pat repl : Str) : Nat → Str → Str
  | _, [] => []
  | 0, s => s
  | fuel + 1, c :: t =>
    if ciPrefix pat (c :: t) then
      repl ++ raCI pat repl fuel ((c :: t).drop pat.length)
    else c :: raCI pat repl fuel t

def replaceAllCI (pat repl s : Str) : Str := raCI pat repl s.length s

/-- The values returned by the translation lookups for the current
language: the static verb and header, and one mapping per vocabulary
category.  The lookups are external collaborators; the engine only
substitutes whatever they return. -/
structure Lookups where
  takeWord : Str
  precautionsHeaderWord : Str
  dosage : Str → Str
  frequency : Str → Str
  interval : Str → Str
  timeOfDay : Str → Str
  precaution : Str → Str

/-- The time-period words iterated by the time-of-day substitution. -/
def timeWords : List Str :=
  [str "morning", str "afternoon", str "evening", str "night", str "noon"]

/-- The substitution pipeline of generateTranslation, step for step:
global replace of the marked verb (capitalized and lower-case forms),
global word-bounded replace of the header word, first-occurrence
replace of dosage, of lower-cased frequency and interval, global
case-insensitive replace of each present time-period word, and
first-occurrence replace of each precaution. -/
def applyTranslations (f : MedicationForm) (lk : Lookups) (text : Str) : Str :=
  let t1 := replaceAllPost (str "ℹ️ Take") (str "ℹ️ " ++ capFirst lk.takeWord) text
  let t2 := replaceAllPost (str "ℹ️ take") (str "ℹ️ " ++ lk.takeWord) t1
  let t3 := replaceAllBoth (str "Precautions") lk.precautionsHeaderWord t2
  let t4 := if f.dosage ≠ [] then replaceFirst f.dosage (lk.dosage f.dosage) t3 else t3
  let t5 :=
    if f.frequency ≠ [] then
      replaceFirst (lowerStr f.frequency) (lowerStr (lk.frequency f.frequency)) t4
    else t4
  let t6 :=
    if f.interval ≠ [] then
      replaceFirst (lowerStr f.interval) (lowerStr (lk.interval f.interval)) t5
    else t5
  let t7 :=
    if f.timeOfDay ≠ [] then
      timeWords.foldl
        (fun acc w =>
          if occursB w (lowerStr f.timeOfDay) then
            replaceAllCI w (lowerStr (lk.timeOfDay (capFirst w))) acc
          else acc)
        t6
    else t6
  if f.precautions ≠ [] then
    f.precautions.foldl
      (fun acc p =>
        if lk.precaution p ≠ [] then replaceFirst p (lk.precaution p) acc else acc)
      t7
  else t7

/-- The fixed string shown in the translated pane while lookups load. -/
def loadingText : Str := str "Loading..."

/-- The fixed string shown in the translated pane when a lookup call
fails. -/
def translationErrorText : Str := str "Translation error - showing English version"

/-- generateTranslation, the display part: guard on empty text or
language, interim loading state while the backing data is not loaded,
and the catch branch of a failed lookup modelled by an absent Lookups
value. -/
def generateTranslation (text language : Str)
    (translationsLoaded medicationsLoaded : Bool) (lookups : Option Lookups)
    (f : MedicationForm) (englishInstructions : Option InstructionDisplay)
    (instructionDisplay : InstructionDisplay) : InstructionDisplay :=
  if text = [] ∨ language = [] then
    { instructionDisplay with translated := placeholderText }
  else if ¬ (translationsLoaded ∧ medicationsLoaded) then
    { instructionDisplay with translated := loadingText }
  else
    match lookups with
    | none =>
      { englishInstructions.getD instructionDisplay with
        translated := translationErrorText, selectedLanguage := language }
    | some lk =>
      { englishInstructions.getD instructionDisplay with
        translated := applyTranslations f lk text, selectedLanguage := language }

/-! ## Helper predicates and sample data -/

/-- The mapped generated section(s) of a field hold no content. -/
def mappedSectionsEmpty (f : FormField) (s : InstructionStructure) : Prop :=
  match f with
  | .name => s.sections.medicationName = []
  | .dosage | .frequency | .interval => s.sections.dosageLine = []
  | .timeOfDay => s.sections.timeOfDay = []
  | .precautions => s.sections.precautionsHeader = [] ∧ s.sections.precautionsList = []

instance (f : FormField) (s : InstructionStructure) : Decidable (mappedSectionsEmpty f s) := by
  cases f <;> simp [mappedSectionsEmpty] <;> infer_instance

/-- A fully populated sample structure, used as a concrete witness input. -/
def sampleStructure : InstructionStructure :=
  { sections :=
      { medicationName := str "Paracetamol"
        dosageLine := str "ℹ️ Take 500mg tablet three times daily every 8 hours."
        dosageLineUserContent := str "with water"
        timeOfDay := str "🕜 morning 🌅, afternoon ☀️, evening 🌆"
        precautionsHeader := str "Precautions"
        precautionsList := [str "• Take with food"] }
    userContent :=
      { beforeMedication := []
        afterMedication := str "generic note"
        afterDosage := str "user line"
        afterTimeOfDay := str "another note" ++ ['\n']
        afterPrecautions := str "final remark" }
    lastGenerated := { english := [], translated := [] } }

/-- A concrete lookup table used in counterexamples and witnesses. -/
def sampleLookups : Lookups :=
  { takeWord := str "thatha", precautionsHeaderWord := str "Ukuqaphela"
    dosage := fun _ => str "iphilisi elingu-500mg"
    frequency := fun _ => str "Kathathu ngosuku"
    interval := fun _ => str "Njalo emahoreni angu-8"
    timeOfDay := fun _ => str "ekuseni"
    precaution := fun _ => str "Thatha nokudla" }

/-- An all-empty form, as when no structured field is set. -/
def emptyForm : MedicationForm :=
  { name := [], dosage := [], frequency := [], interval := [], timeOfDay := []
    precautions := [] }

/-- A line the parser does not capture as a generated section in the
given state: blank after trimming, or matching none of the capture
rules that are live in that state. -/
def Passthrough (st : ParseState) (line : Str) : Prop :=
  trim line = [] ∨
    (¬ (¬ st.medicationNameFound ∧ st.cursor = .beforeMedication) ∧
      ¬ infoMarker.isPrefixOf (trim line) ∧
      ¬ clockMarker.isPrefixOf (trim line) ∧
      ¬ isPrecautionsHeader (trim line) ∧
      ¬ (st.precautionsStarted ∧ (['•'] : Str).isPrefixOf (trim line)))

instance (st : ParseState) (line : Str) : Decidable (Passthrough st line) := by
  unfold Passthrough; infer_instance

/-- The end-to-end sample field set of the specification. -/
def sampleForm : MedicationForm :=
  { name := str "Paracetamol, oral", dosage := str "500mg tablet",
    frequency := str "Three times daily", interval := str "Every 8 hours",
    timeOfDay := str "morning, afternoon, evening",
    precautions := [str "Take with food"] }

/-- Replace the user-content slot selected by a cursor position. -/
def setSlot (c : Cursor) (x : Str) (u : UserContent) : UserContent :=
  match c with
  | .beforeMedication => { u with beforeMedication := x }
  | .afterMedication => { u with afterMedication := x }
  | .afterDosage => { u with afterDosage := x }
  | .afterTimeOfDay => { u with afterTimeOfDay := x }
  | .precautions => { u with afterPrecautions := x }

/-- Rejoin a line list with newlines, the inverse of splitNL. -/
def unsplit : List Str → Str
  | [] => []
  | l :: ls => l ++ (ls.map (fun e => '\n' :: e)).flatten

/-- The string contains no newline. -/
def noNL (x : Str) : Prop := ∀ c ∈ x, c ≠ '\n'

/-- A user-content slot as the parser leaves it: empty, or starting
with a non-blank line and not ending in a newline. -/
def SlotShape (x : Str) : Prop :=
  x = [] ∨ (x.head? ≠ some '\n' ∧ endsWithB ['\n'] x = false)

/-- A line the parser cannot mistake for a generated section. -/
def LineFree (l : Str) : Prop :=
  ¬ (infoMarker.isPrefixOf (trim l) = true) ∧
  ¬ (clockMarker.isPrefixOf (trim l) = true) ∧
  ¬ (isPrecautionsHeader (trim l) = true)

/-- The before-medication slot can only hold whitespace lines: any
non-blank line there would have been captured as the name. -/
def BlankSlot (x : Str) : Prop := (∀ l ∈ splitNL x, trim l = []) ∧ SlotShape x

/-- A user slot whose lines survive reparsing in the given mode. -/
def UserSlot (precMode : Bool) (x : Str) : Prop :=
  (∀ l ∈ splitNL x,
    LineFree l ∧ (precMode = false ∨ ¬ ((['•'] : Str).isPrefixOf (trim l) = true))) ∧
  SlotShape x

/-- The after-time slot before a precautions block ends in exactly one
newline, matching the blank line reassembly inserts there. -/
def AtSlot (x : Str) : Prop :=
  (∀ l ∈ splitNL x, LineFree l) ∧
  (x = [] ∨ (x.head? ≠ some '\n' ∧ endsWithB ['\n'] x = true ∧
    endsWithB ['\n', '\n'] x = false))

/-- A well-formed bullet line of the precautions list. -/
def BulletOK (p : Str) : Prop :=
  p ≠ [] ∧ trim p = p ∧ noNL p ∧ (['•'] : Str).isPrefixOf p = true ∧
  ¬ (infoMarker.isPrefixOf p = true) ∧ ¬ (clockMarker.isPrefixOf p = true) ∧
  ¬ (isPrecautionsHeader p = true)

/-- Internal consistency of an instruction structure: all five
generated sections populated and shaped as the parser produces them
(trimmed single lines carrying their markers, the dosage line with its
single terminating period), user-content slots whose lines the parser
passes through, and the blank-line normalization before the
precautions block already applied. -/
def Consistent (s : InstructionStructure) : Prop :=
  s.lastGenerated = { english := [], translated := [] } ∧
  (s.sections.medicationName ≠ [] ∧
    trim s.sections.medicationName = s.sections.medicationName ∧
    noNL s.sections.medicationName) ∧
  (s.sections.dosageLine ≠ [] ∧
    trim s.sections.dosageLine = s.sections.dosageLine ∧
    noNL s.sections.dosageLine ∧
    infoMarker.isPrefixOf s.sections.dosageLine = true ∧
    (s.sections.dosageLine.dropWhile (· ≠ '.') = ['.'] ∨
      (s.sections.dosageLine.dropWhile (· ≠ '.') = [] ∧
        s.sections.dosageLineUserContent = []))) ∧
  (s.sections.dosageLineUserContent = [] ∨
    (trim s.sections.dosageLineUserContent = s.sections.dosageLineUserContent ∧
      noNL s.sections.dosageLineUserContent)) ∧
  (s.sections.timeOfDay ≠ [] ∧
    trim s.sections.timeOfDay = s.sections.timeOfDay ∧
    noNL s.sections.timeOfDay ∧
    clockMarker.isPrefixOf s.sections.timeOfDay = true ∧
    ¬ (infoMarker.isPrefixOf s.sections.timeOfDay = true)) ∧
  (s.sections.precautionsHeader ≠ [] ∧
    trim s.sections.precautionsHeader = s.sections.precautionsHeader ∧
    noNL s.sections.precautionsHeader ∧
    isPrecautionsHeader s.sections.precautionsHeader = true ∧
    ¬ (infoMarker.isPrefixOf s.sections.precautionsHeader = true) ∧
    ¬ (clockMarker.isPrefixOf s.sections.precautionsHeader = true)) ∧
  (∀ p ∈ s.sections.precautionsList, BulletOK p) ∧
  BlankSlot s.userContent.beforeMedication ∧
  UserSlot false s.userContent.afterMedication ∧
  UserSlot false s.userContent.afterDosage ∧
  AtSlot s.userContent.afterTimeOfDay ∧
  UserSlot true s.userContent.afterPrecautions

instance (x : Str) : Decidable (noNL x) := by
  unfold noNL; infer_instance

instance (x : Str) : Decidable (SlotShape x) := by
  unfold SlotShape; infer_instance

instance (l : Str) : Decidable (LineFree l) := by
  unfold LineFree; infer_instance

instance (x : Str) : Decidable (BlankSlot x) := by
  unfold BlankSlot; infer_instance

instance (precMode : Bool) (x : Str) : Decidable (UserSlot precMode x) := by
  unfold UserSlot; infer_instance

instance (x : Str) : Decidable (AtSlot x) := by
  unfold AtSlot; infer_instance

instance (p : Str) : Decidable (BulletOK p) := by
  unfold BulletOK; infer_instance

instance (s : InstructionStructure) : Decidable (Consistent s) := by
  unfold Consistent
  infer_instance

/-- The line decomposition that reassembling a consistent structure
produces. -/
def consistentLines (s : InstructionStructure) : List Str :=
  (if s.userContent.beforeMedication = [] then []
   else splitNL s.userContent.beforeMedication) ++
  [s.sections.medicationName] ++
  (if s.userContent.afterMedication = [] then []
   else splitNL s.userContent.afterMedication) ++
  [s.sections.dosageLine ++
    (if s.sections.dosageLineUserContent ≠ []
     then [' '] ++ s.sections.dosageLineUserContent else [])] ++
  (if s.userContent.afterDosage = [] then []
   else splitNL s.userContent.afterDosage) ++
  [s.sections.timeOfDay] ++
  (if s.userContent.afterTimeOfDay = [] then [[]]
   else splitNL s.userContent.afterTimeOfDay) ++
  [s.sections.precautionsHeader] ++
  s.sections.precautionsList ++
  splitNL s.userContent.afterPrecautions

/-! ## Theorems -/

/-- C3: clearing the time-of-day field of a structure with all five
generated sections populated blanks exactly the time-of-day section and
leaves every user-content slot and every other section unchanged; and
for every field whose mapped section(s) hold no content the clear
handler returns no update at all. -/
theorem handleFieldClearing_selective :
    (∀ s : InstructionStructure,
      s.sections.medicationName ≠ [] → s.sections.dosageLine ≠ [] →
      s.sections.timeOfDay ≠ [] → s.sections.precautionsHeader ≠ [] →
      s.sections.precautionsList ≠ [] →
      handleFieldClearing .timeOfDay s = some { s with sections.timeOfDay := [] }) ∧
    (∀ (f : FormField) (s : InstructionStructure),
      mappedSectionsEmpty f s → handleFieldClearing f s = none) := by
  constructor
  · intro s _ _ h3 _ _
    simp [handleFieldClearing, h3]
  · intro f s h
    cases f <;> simp_all [handleFieldClearing, mappedSectionsEmpty]

/-- Witness for C3 at concrete inputs. -/
theorem handleFieldClearing_selective_witness :
    handleFieldClearing .timeOfDay sampleStructure =
      some { sampleStructure with sections.timeOfDay := [] } ∧
    handleFieldClearing .name emptyStructure = none :=
  ⟨handleFieldClearing_selective.1 sampleStructure (by decide) (by decide) (by decide)
      (by decide) (by decide),
    handleFieldClearing_selective.2 .name emptyStructure (by decide)⟩

/-- C4: when name, dosage and frequency are all empty the generation
handler resets the display to the empty-state placeholder and clears
the structure, regardless of the other fields; when at least one but
not all of the three are non-empty it performs no update and the prior
display and structure are left untouched. -/
theorem generateInstruction_guard :
    ∀ (f : MedicationForm) (cur : Str) (d : InstructionDisplay)
      (s : InstructionStructure),
      (f.name = [] ∧ f.dosage = [] ∧ f.frequency = [] →
        applyGenResult (generateInstruction f cur) d s =
          ({ d with english := [], translated := placeholderText }, emptyStructure)) ∧
      ((f.name = [] ∨ f.dosage = [] ∨ f.frequency = []) →
        ¬ (f.name = [] ∧ f.dosage = [] ∧ f.frequency = []) →
        applyGenResult (generateInstruction f cur) d s = (d, s)) := by
  intro f cur d s
  constructor
  · intro h
    simp [generateInstruction, h.1, h.2.1, h.2.2, applyGenResult]
  · intro h hn
    rw [generateInstruction, if_neg hn, if_pos h]
    rfl

/-- Witness for C4 at concrete inputs. -/
theorem generateInstruction_guard_witness :
    applyGenResult
        (generateInstruction
          { name := [], dosage := [], frequency := [],
            interval := str "Every 8 hours", timeOfDay := str "morning",
            precautions := [str "Take with food"] }
          (str "Panado"))
        { english := str "Panado", translated := str "x", selectedLanguage := str "isiZulu" }
        sampleStructure =
      ({ english := [], translated := placeholderText, selectedLanguage := str "isiZulu" },
        emptyStructure) ∧
    applyGenResult
        (generateInstruction
          { name := str "Panado", dosage := [], frequency := [],
            interval := [], timeOfDay := [], precautions := [] }
          (str "Panado"))
        { english := str "Panado", translated := str "x", selectedLanguage := str "isiZulu" }
        sampleStructure =
      ({ english := str "Panado", translated := str "x", selectedLanguage := str "isiZulu" },
        sampleStructure) :=
  ⟨(generateInstruction_guard _ _ _ _).1 (by decide),
    (generateInstruction_guard _ _ _ _).2 (by decide) (by decide)⟩

/-- When the dosage line is empty, the reassembled text does not
depend on the inline dosage-line user content. -/
theorem reconstruct_inline_irrelevant (s : InstructionStructure)
    (h : s.sections.dosageLine = []) :
    reconstructInstructionContent s =
      reconstructInstructionContent { s with sections.dosageLineUserContent := [] } := by
  simp [reconstructInstructionContent, reconC8, reconC7, reconC6, reconC5, reconC4,
    reconC3, reconC2, reconC1, h]

/-- C10: clearing the dosage field (and likewise frequency or
interval) blanks the dosage line but retains the inline user text in
the structure, while the reassembled English text no longer depends on
that inline text, because reassembly emits it only under a non-empty
dosage line. -/
theorem dosage_clear_drops_inline :
    ∀ (field : FormField) (s : InstructionStructure),
      (field = .dosage ∨ field = .frequency ∨ field = .interval) →
      s.sections.dosageLine ≠ [] →
      ∃ s', handleFieldClearing field s = some s' ∧
        s'.sections.dosageLineUserContent = s.sections.dosageLineUserContent ∧
        s'.sections.dosageLine = [] ∧
        reconstructInstructionContent s' =
          reconstructInstructionContent
            { s' with sections.dosageLineUserContent := [] } := by
  intro field s hf h
  refine ⟨{ s with sections.dosageLine := [] }, ?_, rfl, rfl,
    reconstruct_inline_irrelevant _ rfl⟩
  rcases hf with rfl | rfl | rfl <;> simp [handleFieldClearing, h]

/-- Witness for C10 at a concrete input. -/
theorem dosage_clear_drops_inline_witness :
    ∃ s', handleFieldClearing .dosage sampleStructure = some s' ∧
      s'.sections.dosageLineUserContent =
        sampleStructure.sections.dosageLineUserContent ∧
      s'.sections.dosageLine = [] ∧
      reconstructInstructionContent s' =
        reconstructInstructionContent
          { s' with sections.dosageLineUserContent := [] } :=
  dosage_clear_drops_inline .dosage sampleStructure (Or.inl rfl) (by decide)

/-- C8: a direct edit of the English text replaces the user content
with the parse of the edited text, and each generated section takes
the value parsed from the edited text when that value is non-empty and
otherwise keeps the previous generated value, so a manually deleted
generated line survives in the retained structure. -/
theorem handleInstructionChange_preserves :
    ∀ (prev : InstructionStructure) (newContent : Str),
      (handleInstructionChange prev newContent).userContent =
        (parseInstructionContent newContent).userContent ∧
      (∀ pick : Sections → Str,
        pick ∈ [Sections.medicationName, Sections.dosageLine, Sections.timeOfDay,
          Sections.precautionsHeader] →
        pick (handleInstructionChange prev newContent).sections =
          (if pick (parseInstructionContent newContent).sections ≠ []
           then pick (parseInstructionContent newContent).sections
           else pick prev.sections)) ∧
      (handleInstructionChange prev newContent).sections.precautionsList =
        (if (parseInstructionContent newContent).sections.precautionsList ≠ []
         then (parseInstructionContent newContent).sections.precautionsList
         else prev.sections.precautionsList) := by
  intro prev newContent
  refine ⟨rfl, ?_, rfl⟩
  intro pick hpick
  simp only [List.mem_cons, List.not_mem_nil, or_false] at hpick
  rcases hpick with rfl | rfl | rfl | rfl <;> rfl

/-- C9 counterexample: when a lookup call fails, the translated pane
is set to the fixed error string, which is not the English text and
does not even contain it, contradicting the claim that the English
text is shown in the translated pane together with an error indicator. -/
theorem translation_error_pane_lacks_english :
    (generateTranslation (str "Panado\nℹ️ Take 1 tablet daily.") (str "isiZulu")
        true true none emptyForm
        (some { english := str "Panado\nℹ️ Take 1 tablet daily.",
                translated := [], selectedLanguage := str "isiZulu" })
        { english := str "Panado\nℹ️ Take 1 tablet daily.",
          translated := [], selectedLanguage := str "isiZulu" }).translated =
      translationErrorText ∧
    ¬ occursB (str "Panado\nℹ️ Take 1 tablet daily.")
        (generateTranslation (str "Panado\nℹ️ Take 1 tablet daily.") (str "isiZulu")
          true true none emptyForm
          (some { english := str "Panado\nℹ️ Take 1 tablet daily.",
                  translated := [], selectedLanguage := str "isiZulu" })
          { english := str "Panado\nℹ️ Take 1 tablet daily.",
            translated := [], selectedLanguage := str "isiZulu" }).translated := by
  constructor
  · rfl
  · decide

/-- C9 amended: while lookups are not yet available the translated
pane is set to the loading indicator, and when a lookup call fails the
translated pane is set to the fixed error-indicator string (the
English text itself is not placed in the translated pane); in both
cases the English-side display is left unchanged and no error
escapes. -/
theorem generateTranslation_degraded_states :
    ∀ (text language : Str) (tl ml : Bool) (f : MedicationForm)
      (eng d : InstructionDisplay),
      text ≠ [] → language ≠ [] →
      (¬ (tl ∧ ml) →
        generateTranslation text language tl ml (some sampleLookups) f (some eng) d =
          { d with translated := loadingText }) ∧
      (generateTranslation text language true true none f (some eng) d =
        { eng with translated := translationErrorText, selectedLanguage := language }) := by
  intro text language tl ml f eng d ht hl
  constructor
  · intro hload
    rw [generateTranslation, if_neg (by simp [ht, hl]), if_pos hload]
  · rw [generateTranslation, if_neg (by simp [ht, hl]), if_neg (by simp)]
    rfl

/-- Witness for the amended C9 at concrete inputs. -/
theorem generateTranslation_degraded_states_witness :
    generateTranslation (str "Panado") (str "isiZulu") false false
        (some sampleLookups) emptyForm
        (some { english := str "Panado", translated := [], selectedLanguage := [] })
        { english := str "old", translated := [], selectedLanguage := [] } =
      { english := str "old", translated := loadingText, selectedLanguage := [] } ∧
    generateTranslation (str "Panado") (str "isiZulu") true true none emptyForm
        (some { english := str "Panado", translated := [], selectedLanguage := [] })
        { english := str "old", translated := [], selectedLanguage := [] } =
      { english := str "Panado", translated := translationErrorText,
        selectedLanguage := str "isiZulu" } :=
  ⟨(generateTranslation_degraded_states (str "Panado") (str "isiZulu") false false
      emptyForm _ _ (by decide) (by decide)).1 (by simp),
    (generateTranslation_degraded_states (str "Panado") (str "isiZulu") true true
      emptyForm _ _ (by decide) (by decide)).2⟩

theorem getSlot_setSlot_same (c : Cursor) (x : Str) (u : UserContent) :
    getSlot c (setSlot c x u) = x := by
  cases c <;> rfl

theorem getSlot_setSlot_other (c c' : Cursor) (x : Str) (u : UserContent)
    (h : c' ≠ c) : getSlot c' (setSlot c x u) = getSlot c' u := by
  cases c <;> cases c' <;> first | rfl | exact absurd rfl h

theorem setSlot_setSlot (c : Cursor) (x y : Str) (u : UserContent) :
    setSlot c y (setSlot c x u) = setSlot c y u := by
  cases c <;> rfl

theorem setSlot_getSlot (c : Cursor) (u : UserContent) :
    setSlot c (getSlot c u) u = u := by
  cases c <;> rfl

/-- A line satisfying the passthrough conditions takes the fall-through
branch of the parser. -/
theorem parseLine_eq_append (st : ParseState) (line : Str)
    (hp : Passthrough st line) : parseLine st line = appendToCursor st line := by
  by_cases ht : trim line = []
  · simp only [parseLine]
    rw [if_neg (by simp [ht])]
  · rcases hp with hblank | ⟨h1, h2, h3, h4, h5⟩
    · exact absurd hblank ht
    · simp only [parseLine]
      rw [if_pos ht, if_neg h1, if_neg (by simpa using h2),
        if_neg (by simpa using h3), if_neg (by simpa using h4),
        if_neg (by simpa using h5)]

/-- The fall-through branch appends the raw line to the slot of the
current cursor with the newline join, leaving the rest of the state
untouched. -/
theorem appendToCursor_eq (st : ParseState) (line : Str)
    (hinv : st.cursor = .precautions → st.precautionsStarted = true) :
    appendToCursor st line =
      { st with struct.userContent :=
          (setSlot st.cursor
            (appendJoin (getSlot st.cursor st.struct.userContent) line)
            st.struct.userContent) } := by
  rcases hc : st.cursor with _ | _ | _ | _ | _
  · simp [appendToCursor, hc, setSlot, getSlot]
  · simp [appendToCursor, hc, setSlot, getSlot]
  · simp [appendToCursor, hc, setSlot, getSlot]
  · simp [appendToCursor, hc, setSlot, getSlot]
  · simp [appendToCursor, hc, hinv hc, setSlot, getSlot]

/-- The Passthrough conditions do not depend on the user content. -/
theorem passthrough_set_userContent (st : ParseState) (u : UserContent) (l : Str) :
    Passthrough { st with struct.userContent := u } l ↔ Passthrough st l :=
  Iff.rfl

/-- Folding the parser over passthrough lines appends them all, newline
joined, to the slot of the current cursor. -/
theorem parse_fold_passthrough (ls : List Str) :
    ∀ st : ParseState,
      (st.cursor = .precautions → st.precautionsStarted = true) →
      (∀ l ∈ ls, Passthrough st l) →
      List.foldl parseLine st ls =
        { st with struct.userContent :=
            (setSlot st.cursor
              (List.foldl appendJoin (getSlot st.cursor st.struct.userContent) ls)
              st.struct.userContent) } := by
  induction ls with
  | nil =>
    intro st _ _
    simp [setSlot_getSlot]
  | cons l ls ih =>
    intro st hinv hp
    rw [List.foldl_cons, parseLine_eq_append st l (hp l (List.mem_cons_self l ls)),
      appendToCursor_eq st l hinv]
    rw [ih _ (by simpa using hinv) (fun l' hl' =>
      (passthrough_set_userContent st _ l').mpr (hp l' (List.mem_cons_of_mem _ hl')))]
    simp only [getSlot_setSlot_same, setSlot_setSlot, List.foldl_cons]

/-- C6 counterexample: an input of two blank lines parses to a
structure with every user-content slot empty, indistinguishable from
the parse of the empty input, and reassembles to the empty text — the
blank lines are silently dropped rather than preserved as user
content. -/
theorem blank_lines_dropped :
    parseInstructionContent (str "\n") = parseInstructionContent (str "") ∧
    (parseInstructionContent (str "\n")).userContent = emptyUserContent ∧
    reconstructInstructionContent (parseInstructionContent (str "\n")) = [] := by
  refine ⟨by decide, by decide, by decide⟩

/-- C6 amended: the parser is total by construction, and every line it
does not capture as a generated section is appended to the
user-content slot of the current cursor position by the newline join
slot plus separator plus line; the sections, cursor, flags and all
other slots are untouched.  Because the join degenerates to the line
itself on an empty slot, a blank line arriving at an empty slot leaves
no trace: blank lines are preserved only once the slot holds content. -/
theorem parseLine_passthrough :
    ∀ (st : ParseState) (line : Str),
      (st.cursor = .precautions → st.precautionsStarted) →
      Passthrough st line →
      (parseLine st line).struct.sections = st.struct.sections ∧
      (parseLine st line).cursor = st.cursor ∧
      (parseLine st line).medicationNameFound = st.medicationNameFound ∧
      (parseLine st line).precautionsStarted = st.precautionsStarted ∧
      getSlot st.cursor (parseLine st line).struct.userContent =
        appendJoin (getSlot st.cursor st.struct.userContent) line ∧
      (∀ c : Cursor, c ≠ st.cursor →
        getSlot c (parseLine st line).struct.userContent =
          getSlot c st.struct.userContent) ∧
      (getSlot st.cursor st.struct.userContent = [] → line = [] →
        getSlot st.cursor (parseLine st line).struct.userContent = []) := by
  intro st line hinv hp
  have hstep : parseLine st line = appendToCursor st line := by
    by_cases ht : trim line = []
    · simp only [parseLine]
      rw [if_neg (by simp [ht])]
    · rcases hp with hblank | ⟨h1, h2, h3, h4, h5⟩
      · exact absurd hblank ht
      · simp only [parseLine]
        rw [if_pos ht, if_neg h1, if_neg (by simpa using h2),
          if_neg (by simpa using h3), if_neg (by simpa using h4),
          if_neg (by simpa using h5)]
  rw [hstep]
  have happ :
      (appendToCursor st line).struct.sections = st.struct.sections ∧
      (appendToCursor st line).cursor = st.cursor ∧
      (appendToCursor st line).medicationNameFound = st.medicationNameFound ∧
      (appendToCursor st line).precautionsStarted = st.precautionsStarted ∧
      getSlot st.cursor (appendToCursor st line).struct.userContent =
        appendJoin (getSlot st.cursor st.struct.userContent) line ∧
      (∀ c : Cursor, c ≠ st.cursor →
        getSlot c (appendToCursor st line).struct.userContent =
          getSlot c st.struct.userContent) := by
    rcases hc : st.cursor with _ | _ | _ | _ | _
    · refine ⟨by simp [appendToCursor, hc], by simp [appendToCursor, hc],
        by simp [appendToCursor, hc], by simp [appendToCursor, hc],
        by simp [appendToCursor, hc, getSlot], ?_⟩
      intro c hne
      cases c <;> simp_all [appendToCursor, getSlot]
    · refine ⟨by simp [appendToCursor, hc], by simp [appendToCursor, hc],
        by simp [appendToCursor, hc], by simp [appendToCursor, hc],
        by simp [appendToCursor, hc, getSlot], ?_⟩
      intro c hne
      cases c <;> simp_all [appendToCursor, getSlot]
    · refine ⟨by simp [appendToCursor, hc], by simp [appendToCursor, hc],
        by simp [appendToCursor, hc], by simp [appendToCursor, hc],
        by simp [appendToCursor, hc, getSlot], ?_⟩
      intro c hne
      cases c <;> simp_all [appendToCursor, getSlot]
    · refine ⟨by simp [appendToCursor, hc], by simp [appendToCursor, hc],
        by simp [appendToCursor, hc], by simp [appendToCursor, hc],
        by simp [appendToCursor, hc, getSlot], ?_⟩
      intro c hne
      cases c <;> simp_all [appendToCursor, getSlot]
    · have hps : st.precautionsStarted = true := hinv hc
      refine ⟨by simp [appendToCursor, hc, hps], by simp [appendToCursor, hc, hps],
        by simp [appendToCursor, hc, hps], by simp [appendToCursor, hc, hps],
        by simp [appendToCursor, hc, hps, getSlot], ?_⟩
      intro c hne
      cases c <;> simp_all [appendToCursor, getSlot]
  refine ⟨happ.1, happ.2.1, happ.2.2.1, happ.2.2.2.1, happ.2.2.2.2.1,
    happ.2.2.2.2.2, ?_⟩
  intro hslot hline
  rw [happ.2.2.2.2.1, hslot, hline]
  rfl

/-- Witness for the amended C6 at a concrete state and line. -/
theorem parseLine_passthrough_witness :
    getSlot Cursor.afterDosage
        (parseLine
          { struct := sampleStructure, cursor := .afterDosage,
            medicationNameFound := true, precautionsStarted := false }
          (str "extra note")).struct.userContent =
      appendJoin sampleStructure.userContent.afterDosage (str "extra note") :=
  (parseLine_passthrough
    { struct := sampleStructure, cursor := .afterDosage,
      medicationNameFound := true, precautionsStarted := false }
    (str "extra note") (by intro h; cases h) (by decide)).2.2.2.2.1

/-- A text without occurrence of the pattern is left unchanged by the
trailing-boundary global scanner. -/
theorem raPost_id (pat repl : Str) :
    ∀ (fuel : Nat) (s : Str), occursB pat s = false → raPost pat repl fuel s = s := by
  intro fuel
  induction fuel with
  | zero => intro s _; cases s <;> rfl
  | succ n ih =>
    intro s hs
    cases s with
    | nil => rfl
    | cons c t =>
      simp only [occursB, Bool.or_eq_false_iff] at hs
      rw [raPost, if_neg (by simp [hs.1]), ih t hs.2]

/-- A text without occurrence of the pattern is left unchanged by the
double-boundary global scanner. -/
theorem raBoth_id (pat repl : Str) :
    ∀ (fuel : Nat) (prev : Option Char) (s : Str),
      occursB pat s = false → raBoth pat repl fuel prev s = s := by
  intro fuel
  induction fuel with
  | zero => intro prev s _; cases s <;> rfl
  | succ n ih =>
    intro prev s hs
    cases s with
    | nil => rfl
    | cons c t =>
      simp only [occursB, Bool.or_eq_false_iff] at hs
      rw [raBoth, if_neg (by simp [hs.1]), ih _ t hs.2]

/-- First-occurrence replacement: when the pattern occurs nowhere
before the designated position, exactly that occurrence is replaced
and the rest of the text, later occurrences included, is unchanged. -/
theorem replaceFirst_at (pat repl : Str) :
    ∀ (p q : Str),
      (∀ k, k < p.length → pat.isPrefixOf ((p ++ pat ++ q).drop k) = false) →
      replaceFirst pat repl (p ++ pat ++ q) = p ++ repl ++ q := by
  intro p
  induction p with
  | nil =>
    intro q _
    cases hpq : pat ++ q with
    | nil =>
      rcases List.append_eq_nil.mp hpq with ⟨h1, h2⟩
      subst h1; subst h2
      simp [replaceFirst]
    | cons c t =>
      have hpre : pat.isPrefixOf (pat ++ q) = true := by
        simp [List.isPrefixOf_iff_prefix, List.prefix_append]
      simp only [List.nil_append]
      rw [hpq, replaceFirst, if_pos (by rw [← hpq]; exact hpre), ← hpq,
        List.drop_left]
  | cons c p' ih =>
    intro q H
    have hassoc : (c :: p') ++ pat ++ q = c :: (p' ++ pat ++ q) := by simp
    rw [hassoc]
    have h0 : pat.isPrefixOf (c :: (p' ++ pat ++ q)) = false := by
      have h := H 0 (by simp)
      rw [List.drop_zero, hassoc] at h
      exact h
    rw [replaceFirst,
      if_neg (fun hcontra => by rw [h0] at hcontra; exact Bool.false_ne_true hcontra),
      ih q (fun k hk => by
        have h := H (k + 1) (by simpa using Nat.succ_lt_succ hk)
        rwa [hassoc, List.drop_succ_cons] at h)]
    simp

/-- C5 counterexample: the header word Precautions occurring twice in
the text is replaced at both occurrences by the substitution pipeline
(the replacement is a global regex), so the output does not differ from
the source in exactly the first occurrence. -/
theorem precautions_replaced_globally :
    applyTranslations emptyForm sampleLookups (str "Precautions apply Precautions") =
      str "Ukuqaphela apply Ukuqaphela" ∧
    ¬ occursB (str "Precautions")
        (applyTranslations emptyForm sampleLookups
          (str "Precautions apply Precautions")) := by
  exact ⟨by decide, by decide⟩

/-- C5 amended: the dosage, frequency, interval and precaution values
are replaced at their first literal occurrence only — in a text whose
first dosage occurrence is at the designated position and which
triggers none of the global verb and header replacements, exactly that
occurrence is replaced and every later occurrence in the remainder is
left unchanged.  (The verb Take, the header word Precautions and the
recognized time-of-day period words are instead replaced at every
occurrence, as the counterexample shows.) -/
theorem applyTranslations_dosage_first_only :
    ∀ (lk : Lookups) (d p q : Str),
      d ≠ [] →
      occursB (str "ℹ️ Take") (p ++ d ++ q) = false →
      occursB (str "ℹ️ take") (p ++ d ++ q) = false →
      occursB (str "Precautions") (p ++ d ++ q) = false →
      (∀ k, k < p.length → d.isPrefixOf ((p ++ d ++ q).drop k) = false) →
      applyTranslations { emptyForm with dosage := d } lk (p ++ d ++ q) =
        p ++ lk.dosage d ++ q := by
  intro lk d p q hd h1 h2 h3 H
  show (if d ≠ [] then _ else _) = _
  rw [if_pos hd]
  rw [show replaceAllPost (str "ℹ️ Take") (str "ℹ️ " ++ capFirst lk.takeWord)
        (p ++ d ++ q) = p ++ d ++ q from raPost_id _ _ _ _ h1]
  rw [show replaceAllPost (str "ℹ️ take") (str "ℹ️ " ++ lk.takeWord)
        (p ++ d ++ q) = p ++ d ++ q from raPost_id _ _ _ _ h2]
  rw [show replaceAllBoth (str "Precautions") lk.precautionsHeaderWord
        (p ++ d ++ q) = p ++ d ++ q from raBoth_id _ _ _ _ _ h3]
  exact replaceFirst_at d (lk.dosage d) p q H

/-- Witness for the amended C5 at a concrete input in which the dosage
value occurs twice: only the first occurrence is replaced. -/
theorem applyTranslations_dosage_first_only_witness :
    applyTranslations { emptyForm with dosage := str "500mg" } sampleLookups
        (str "dose: 500mg now; user note repeats 500mg later") =
      str "dose: " ++ str "iphilisi elingu-500mg" ++
        str " now; user note repeats 500mg later" :=
  applyTranslations_dosage_first_only sampleLookups (str "500mg") (str "dose: ")
    (str " now; user note repeats 500mg later") (by decide) (by decide) (by decide)
    (by decide) (by decide)

theorem endsWithB_append_singleton (l s : Str) (a : Char) :
    endsWithB (l ++ [a]) (s ++ [a]) = endsWithB l s := by
  simp [endsWithB, List.isSuffixOf, List.reverse_append, List.isPrefixOf]

theorem endsWithB_append_of_ne_nil (u v : Str) (a : Char) (hv : v ≠ []) :
    endsWithB [a] (u ++ v) = endsWithB [a] v := by
  obtain ⟨b, w, hw⟩ : ∃ b w, v.reverse = b :: w := by
    cases hv' : v.reverse with
    | nil => exact absurd (by simpa using hv') hv
    | cons b w => exact ⟨b, w, rfl⟩
  simp [endsWithB, List.isSuffixOf, List.reverse_append, hw, List.isPrefixOf]

theorem lowerStr_ne_nil {s : Str} (h : s ≠ []) : lowerStr s ≠ [] := by
  simp [lowerStr, h]

theorem intercalate_head_ne_nil {sep x : Str} {xs : List Str} (hx : x ≠ []) :
    List.intercalate sep (x :: xs) ≠ [] := by
  cases xs with
  | nil => simpa [List.intercalate, List.intersperse] using hx
  | cons y t => simp [List.intercalate, List.intersperse, hx]

/-- The formatted time-of-day line body is never empty for a non-empty
field value. -/
theorem formatTimeOfDay_ne_nil {tod : Str} (h : tod ≠ []) :
    formatTimeOfDay tod ≠ [] := by
  simp only [formatTimeOfDay]
  cases hft : timeEmojis.filterMap
      (fun pe => if occursB pe.1 (lowerStr tod) then some (pe.1 ++ [' '] ++ pe.2)
        else none) with
  | nil => simpa using lowerStr_ne_nil h
  | cons x xs =>
    have hx : x ≠ [] := by
      have hmem : x ∈ timeEmojis.filterMap
          (fun pe => if occursB pe.1 (lowerStr tod) then some (pe.1 ++ [' '] ++ pe.2)
            else none) := by
        rw [hft]; exact List.mem_cons_self x xs
      rcases List.mem_filterMap.mp hmem with ⟨pe, _, hpe⟩
      split at hpe
      · cases hpe
        simp [List.append_eq_nil]
      · cases hpe
    rw [if_neg (by simp)]
    exact intercalate_head_ne_nil hx

/-- Reassembly of a structure with all generated sections present and
no user content: the sections appear in the fixed order — name, dosage
line, time line, precautions header, bullet list — with the inserted
blank line before the precautions block. -/
theorem reconstruct_canonical (m d t hdr : Str) (P : List Str)
    (hm : m ≠ []) (hd : d ≠ []) (ht : t ≠ []) (hh : hdr ≠ [])
    (hnn : endsWithB ['\n'] t = false) :
    reconstructInstructionContent
      { sections :=
          { medicationName := m
            dosageLine := d
            dosageLineUserContent := []
            timeOfDay := t
            precautionsHeader := hdr
            precautionsList := P }
        userContent := emptyUserContent
        lastGenerated := { english := [], translated := [] } } =
    m ++ ['\n'] ++ d ++ ['\n'] ++ t ++ ['\n', '\n'] ++ hdr ++ ['\n'] ++
      (P.map (fun p => p ++ ['\n'])).flatten := by
  simp only [reconstructInstructionContent, reconC8, reconC7, reconC6, reconC5,
    reconC4, reconC3, reconC2, reconC1, emptyUserContent]
  simp [hm, hd, ht, hh]
  have hend : endsWithB ['\n', '\n'] (m ++ '\n' :: (d ++ '\n' :: (t ++ ['\n']))) = false := by
    rw [show m ++ '\n' :: (d ++ '\n' :: (t ++ ['\n'])) =
        (m ++ ['\n'] ++ d ++ ['\n'] ++ t) ++ ['\n'] by simp,
      show (['\n', '\n'] : Str) = ['\n'] ++ ['\n'] from rfl,
      endsWithB_append_singleton,
      show (m ++ ['\n'] ++ d ++ ['\n'] ++ t : Str) =
        (m ++ ['\n'] ++ d ++ ['\n']) ++ t by simp,
      endsWithB_append_of_ne_nil _ _ _ ht, hnn]
  rw [hend]
  simp

/-- C7: with name, dosage and frequency non-empty, composition
produces the name truncated at the first comma, the dosage line as the
marker, the verb Take, the dosage, the lower-cased frequency, the
optional lower-cased interval and the terminating period, the time
line as the marker plus the formatted periods, the header and one
bullet per precaution; and starting from a text without user content
the sections appear in the reassembled text in the fixed order. -/
theorem generateInstruction_compose :
    ∀ (f : MedicationForm) (cur : Str),
      f.name ≠ [] → f.dosage ≠ [] → f.frequency ≠ [] →
      ∃ s e, generateInstruction f cur = .gen s e ∧
        s.sections.medicationName = f.name.takeWhile (· ≠ ',') ∧
        s.sections.dosageLine =
          infoMarker ++ [' '] ++ str "Take" ++ [' '] ++ f.dosage ++ [' '] ++
            lowerStr f.frequency ++
            (if f.interval = [] then [] else [' '] ++ lowerStr f.interval) ++ ['.'] ∧
        s.sections.timeOfDay =
          (if f.timeOfDay = [] then []
           else clockMarker ++ [' '] ++ formatTimeOfDay f.timeOfDay) ∧
        s.sections.precautionsHeader =
          (if f.precautions = [] then [] else str "Precautions") ∧
        s.sections.precautionsList = f.precautions.map (fun p => str "• " ++ p) ∧
        ((parseInstructionContent cur).userContent = emptyUserContent →
          (parseInstructionContent cur).sections.dosageLineUserContent = [] →
          f.timeOfDay ≠ [] → f.precautions ≠ [] → cleanName f.name ≠ [] →
          endsWithB ['\n'] (formatTimeOfDay f.timeOfDay) = false →
          e = cleanName f.name ++ ['\n'] ++ s.sections.dosageLine ++ ['\n'] ++
              s.sections.timeOfDay ++ ['\n', '\n'] ++ str "Precautions" ++ ['\n'] ++
              (s.sections.precautionsList.map (fun p => p ++ ['\n'])).flatten) := by
  intro f cur h1 h2 h3
  rw [generateInstruction, if_neg (by simp [h1]), if_neg (by simp [h1, h2, h3])]
  refine ⟨_, _, rfl, ?_, ?_, ?_, ?_, ?_, ?_⟩
  · rfl
  · show str "ℹ️ Take " ++ f.dosage ++ [' '] ++ lowerStr f.frequency ++ _ ++ ['.'] = _
    rw [show (str "ℹ️ Take " : Str) = infoMarker ++ [' '] ++ str "Take" ++ [' '] by decide]
    by_cases hi : f.interval = [] <;> simp [hi, List.append_assoc]
  · by_cases htod : f.timeOfDay = [] <;>
      simp [htod, show (str "🕜 " : Str) = clockMarker ++ [' '] by decide,
        List.append_assoc]
  · by_cases hp : f.precautions = [] <;> simp [hp]
  · rfl
  · intro hu hud htod hp hcn hfmt
    rw [hu, hud, if_pos htod, if_pos hp]
    have hd' : (str "ℹ️ Take " ++ f.dosage ++ [' '] ++ lowerStr f.frequency ++
        (if f.interval ≠ [] then [' '] ++ lowerStr f.interval else [])) ++ ['.'] ≠
          ([] : Str) := by
      simp [List.append_eq_nil]
    have ht' : str "🕜 " ++ formatTimeOfDay f.timeOfDay ≠ ([] : Str) := by
      simp [List.append_eq_nil, show (str "🕜 " : Str) ≠ [] by decide]
    have hh' : (str "Precautions" : Str) ≠ [] := by decide
    have hnn' : endsWithB ['\n'] (str "🕜 " ++ formatTimeOfDay f.timeOfDay) = false := by
      rw [endsWithB_append_of_ne_nil _ _ _ (formatTimeOfDay_ne_nil htod)]
      exact hfmt
    rw [reconstruct_canonical _ _ _ _ _ hcn hd' ht' hh' hnn']

/-- Decomposition of reassembly around a non-empty dosage line with
non-empty user content after it and a time-of-day line: the text is
some prefix, then the dosage line with its inline user content, a
newline, the after-dosage user content, a newline, the time-of-day
line, and some suffix. -/
theorem reconstruct_decomp (s : InstructionStructure)
    (hd : s.sections.dosageLine ≠ [])
    (had : s.userContent.afterDosage ≠ [])
    (hend : endsWithB ['\n'] s.userContent.afterDosage = false)
    (ht : s.sections.timeOfDay ≠ []) :
    ∃ pre post,
      reconstructInstructionContent s =
        pre ++ s.sections.dosageLine ++
          (if s.sections.dosageLineUserContent ≠ []
           then [' '] ++ s.sections.dosageLineUserContent else []) ++
          ['\n'] ++ s.userContent.afterDosage ++ ['\n'] ++
          s.sections.timeOfDay ++ post := by
  have h4 : reconC4 s = reconC3 s ++ s.sections.dosageLine ++
      (if s.sections.dosageLineUserContent ≠ []
       then [' '] ++ s.sections.dosageLineUserContent else []) ++ ['\n'] := by
    rw [reconC4, if_pos hd, if_pos (Or.inl had)]
  have h5 : reconC5 s = reconC4 s ++ s.userContent.afterDosage ++ ['\n'] := by
    rw [reconC5, if_pos had, if_pos ⟨by simp [hend], ht⟩]
  have h6 : ∃ B, reconC6 s = reconC5 s ++ s.sections.timeOfDay ++ B := by
    rw [reconC6, if_pos ht]
    exact ⟨_, rfl⟩
  have h7 : ∃ A, reconC7 s = reconC6 s ++ A := by
    rw [reconC7]
    by_cases hat : s.userContent.afterTimeOfDay ≠ []
    · rw [if_pos hat]
      exact ⟨_, List.append_assoc _ _ _⟩
    · rw [if_neg hat]
      exact ⟨[], by simp⟩
  have h8 : ∃ X, reconC8 s = reconC7 s ++ X := by
    rw [reconC8]
    by_cases hp : s.sections.precautionsHeader ≠ [] ∨ s.sections.precautionsList ≠ []
    · rw [if_pos hp]
      by_cases hc : reconC7 s ≠ [] ∧ ¬ endsWithB ['\n', '\n'] (reconC7 s)
      · rw [if_pos hc]
        refine ⟨['\n'] ++
          (if s.sections.precautionsHeader ≠ []
           then s.sections.precautionsHeader ++ ['\n'] else []) ++
          (s.sections.precautionsList.map (fun p => p ++ ['\n'])).flatten, ?_⟩
        simp [List.append_assoc]
      · rw [if_neg hc]
        refine ⟨(if s.sections.precautionsHeader ≠ []
           then s.sections.precautionsHeader ++ ['\n'] else []) ++
          (s.sections.precautionsList.map (fun p => p ++ ['\n'])).flatten, ?_⟩
        simp [List.append_assoc]
    · rw [if_neg hp]
      exact ⟨[], by simp⟩
  obtain ⟨B, h6⟩ := h6
  obtain ⟨A, h7⟩ := h7
  obtain ⟨X, h8⟩ := h8
  refine ⟨reconC3 s, B ++ A ++ X ++ s.userContent.afterPrecautions, ?_⟩
  rw [reconstructInstructionContent, h8, h7, h6, h5, h4]
  simp [List.append_assoc]

/-- C2: regenerating over a previous text whose after-dosage slot
holds a user-inserted line, with name, dosage and the (new) frequency
non-empty and a time-of-day present, yields a text in which that line
still sits after the freshly generated dosage line — built from the
new lower-cased frequency — and before the time-of-day line. -/
theorem user_line_survives_regeneration :
    ∀ (f : MedicationForm) (T U : Str),
      f.name ≠ [] → f.dosage ≠ [] → f.frequency ≠ [] → f.timeOfDay ≠ [] →
      (parseInstructionContent T).userContent.afterDosage = U →
      U ≠ [] → endsWithB ['\n'] U = false →
      ∃ s pre post,
        generateInstruction f T = .gen s
          (pre ++
            (str "ℹ️ Take " ++ f.dosage ++ [' '] ++ lowerStr f.frequency ++
              (if f.interval ≠ [] then [' '] ++ lowerStr f.interval else []) ++ ['.']) ++
            (if (parseInstructionContent T).sections.dosageLineUserContent ≠ []
             then [' '] ++ (parseInstructionContent T).sections.dosageLineUserContent
             else []) ++
            ['\n'] ++ U ++ ['\n'] ++
            (str "🕜 " ++ formatTimeOfDay f.timeOfDay) ++ post) := by
  intro f T U h1 h2 h3 htod hU hUne hUend
  rw [generateInstruction, if_neg (by simp [h1]), if_neg (by simp [h1, h2, h3])]
  have hd' : (str "ℹ️ Take " ++ f.dosage ++ [' '] ++ lowerStr f.frequency ++
      (if f.interval ≠ [] then [' '] ++ lowerStr f.interval else []) ++ ['.'] : Str) ≠ [] := by
    simp [List.append_eq_nil]
  have ht' : (if f.timeOfDay ≠ [] then str "🕜 " ++ formatTimeOfDay f.timeOfDay
      else []) ≠ ([] : Str) := by
    rw [if_pos htod]
    simp [List.append_eq_nil, show (str "🕜 " : Str) ≠ [] by decide]
  obtain ⟨pre, post, hdec⟩ := reconstruct_decomp
    { sections :=
        { medicationName := cleanName f.name
          dosageLine := str "ℹ️ Take " ++ f.dosage ++ [' '] ++ lowerStr f.frequency ++
            (if f.interval ≠ [] then [' '] ++ lowerStr f.interval else []) ++ ['.']
          dosageLineUserContent := (parseInstructionContent T).sections.dosageLineUserContent
          timeOfDay := if f.timeOfDay ≠ [] then str "🕜 " ++ formatTimeOfDay f.timeOfDay else []
          precautionsHeader := if f.precautions ≠ [] then str "Precautions" else []
          precautionsList := f.precautions.map fun p => str "• " ++ p }
      userContent := (parseInstructionContent T).userContent
      lastGenerated := { english := [], translated := [] } }
    hd' (by simpa [hU] using hUne) (by simpa [hU] using hUend) ht'
  exact ⟨_, pre, post,
    congrArg (GenResult.gen _) (by simpa [htod, hU, List.append_assoc] using hdec)⟩

/-- Witness for C2 at concrete inputs: the user note between the
dosage and time lines survives a frequency change. -/
theorem user_line_survives_regeneration_witness :
    ∃ s pre post,
      generateInstruction
          { name := str "Paracetamol, oral", dosage := str "500mg tablet",
            frequency := str "Twice daily", interval := [],
            timeOfDay := str "morning", precautions := [] }
          (str "Paracetamol\nℹ️ Take 500mg tablet once daily.\nUSER NOTE\n🕜 morning 🌅") =
        GenResult.gen s
          (pre ++
            (str "ℹ️ Take " ++ str "500mg tablet" ++ [' '] ++
              lowerStr (str "Twice daily") ++
              (if ([] : Str) ≠ [] then [' '] ++ lowerStr [] else []) ++ ['.']) ++
            (if (parseInstructionContent
                  (str "Paracetamol\nℹ️ Take 500mg tablet once daily.\nUSER NOTE\n🕜 morning 🌅")).sections.dosageLineUserContent ≠ []
             then [' '] ++ (parseInstructionContent
                  (str "Paracetamol\nℹ️ Take 500mg tablet once daily.\nUSER NOTE\n🕜 morning 🌅")).sections.dosageLineUserContent
             else []) ++
            ['\n'] ++ str "USER NOTE" ++ ['\n'] ++
            (str "🕜 " ++ formatTimeOfDay (str "morning")) ++ post) :=
  user_line_survives_regeneration
    { name := str "Paracetamol, oral", dosage := str "500mg tablet",
      frequency := str "Twice daily", interval := [],
      timeOfDay := str "morning", precautions := [] }
    (str "Paracetamol\nℹ️ Take 500mg tablet once daily.\nUSER NOTE\n🕜 morning 🌅")
    (str "USER NOTE")
    (by decide) (by decide) (by decide) (by decide) (by decide) (by decide) (by decide)

/-- Witness for C7 at the end-to-end sample fields, producing the
expected English block. -/
theorem generateInstruction_compose_witness :
    ∃ s e, generateInstruction sampleForm [] = GenResult.gen s e ∧
      e = str "Paracetamol\nℹ️ Take 500mg tablet three times daily every 8 hours.\n🕜 morning 🌅, afternoon ☀️, evening 🌆\n\nPrecautions\n• Take with food\n" := by
  obtain ⟨s, e, hgen, hn, hd, ht, hh, hl, horder⟩ :=
    generateInstruction_compose sampleForm [] (by decide) (by decide) (by decide)
  refine ⟨s, e, hgen, ?_⟩
  rw [horder (by decide) (by decide) (by decide) (by decide) (by decide) (by decide),
    hd, ht, hl]
  decide

theorem splitNL_ne_nil (x : Str) : splitNL x ≠ [] := by
  cases x with
  | nil => simp [splitNL]
  | cons c cs =>
    simp only [splitNL]
    split
    · simp
    · cases h : splitNL cs <;> simp [h]

theorem splitNL_append (a b : Str) :
    splitNL (a ++ '\n' :: b) = splitNL a ++ splitNL b := by
  induction a with
  | nil => simp [splitNL]
  | cons c a' ih =>
    by_cases hc : c = '\n'
    · subst hc
      simp [splitNL, ih]
    · simp only [List.cons_append, splitNL, if_neg hc, List.append_eq]
      rw [ih]
      cases h : splitNL a' with
      | nil => exact absurd h (splitNL_ne_nil a')
      | cons l ls => simp

theorem splitNL_noNL (x : Str) (h : noNL x) : splitNL x = [x] := by
  induction x with
  | nil => rfl
  | cons c cs ih =>
    have hc : c ≠ '\n' := h c (List.mem_cons_self c cs)
    have hcs : noNL cs := fun d hd => h d (List.mem_cons_of_mem _ hd)
    simp [splitNL, hc, ih hcs]

theorem unsplit_splitNL (x : Str) : unsplit (splitNL x) = x := by
  induction x with
  | nil => rfl
  | cons c cs ih =>
    by_cases hc : c = '\n'
    · subst hc
      simp only [splitNL, if_pos rfl]
      cases h : splitNL cs with
      | nil => exact absurd h (splitNL_ne_nil cs)
      | cons l ls =>
        rw [h] at ih
        simp only [unsplit, List.map_cons, List.flatten_cons] at ih ⊢
        simp [← ih]
    · simp only [splitNL, if_neg hc]
      cases h : splitNL cs with
      | nil => exact absurd h (splitNL_ne_nil cs)
      | cons l ls =>
        rw [h] at ih
        simp only [unsplit, List.map_cons, List.flatten_cons] at ih ⊢
        simp [← ih]

theorem foldl_appendJoin_ne (ls : List Str) :
    ∀ acc, acc ≠ [] →
      List.foldl appendJoin acc ls = acc ++ (ls.map (fun e => '\n' :: e)).flatten := by
  induction ls with
  | nil => intro acc _; simp
  | cons l ls ih =>
    intro acc hacc
    rw [List.foldl_cons, show appendJoin acc l = acc ++ '\n' :: l by
      simp [appendJoin, hacc], ih _ (by simp)]
    simp

theorem foldl_appendJoin_splitNL (x : Str) (hx : x.head? ≠ some '\n') :
    List.foldl appendJoin [] (splitNL x) = x := by
  cases x with
  | nil => rfl
  | cons c cs =>
    have hc : c ≠ '\n' := by
      intro h
      exact hx (by simp [h])
    simp only [splitNL, if_neg hc]
    cases h : splitNL cs with
    | nil => exact absurd h (splitNL_ne_nil cs)
    | cons l ls =>
      rw [List.foldl_cons, show appendJoin [] (c :: l) = c :: l by simp [appendJoin],
        foldl_appendJoin_ne ls (c :: l) (by simp)]
      have hu := unsplit_splitNL (c :: cs)
      simp only [splitNL, if_neg hc, h, unsplit] at hu
      simpa using hu

theorem length_dropWhile_lt (p : Char → Bool) (l : Str) :
    (l.dropWhile p).length ≤ l.length :=
  (List.dropWhile_suffix p).length_le

theorem dropWhile_eq_self_head {p : Char → Bool} {c : Char} {cs : Str}
    (h : List.dropWhile p (c :: cs) = c :: cs) : p c = false := by
  by_cases hc : p c = true
  · rw [List.dropWhile_cons_of_pos hc] at h
    have h1 := congrArg List.length h
    have h2 := length_dropWhile_lt p cs
    simp at h1
    omega
  · simpa using hc

theorem trimStart_of_trim {x : Str} (h : trim x = x) : trimStart x = x := by
  cases x with
  | nil => rfl
  | cons c cs =>
    by_cases hc : isWS c = true
    · exfalso
      have hts : trimStart (c :: cs) = trimStart cs := by
        simp [trimStart, List.dropWhile_cons_of_pos hc]
      have hlen : (trim (c :: cs)).length ≤ cs.length := by
        unfold trim
        rw [hts]
        calc (trimEnd (trimStart cs)).length
            ≤ (trimStart cs).length := by
              unfold trimEnd
              simpa using length_dropWhile_lt isWS (trimStart cs).reverse
          _ ≤ cs.length := by
              unfold trimStart
              exact length_dropWhile_lt isWS cs
      have := congrArg List.length h
      simp at this
      omega
    · simp [trimStart, List.dropWhile_cons_of_neg (by simpa using hc)]

theorem trimEnd_of_trim {x : Str} (h : trim x = x) : trimEnd x = x := by
  have h1 := trimStart_of_trim h
  unfold trim at h
  rwa [h1] at h

theorem dropWhile_reverse_of_trimEnd {x : Str} (h : trimEnd x = x) :
    List.dropWhile isWS x.reverse = x.reverse := by
  have := congrArg List.reverse h
  unfold trimEnd at this
  simpa using this

theorem trim_fixed_append {d du : Str} (hd : trim d = d) (hdne : d ≠ [])
    (hdu : trim du = du) (hdune : du ≠ []) :
    trim (d ++ ' ' :: du) = d ++ ' ' :: du := by
  obtain ⟨c, cs, rfl⟩ : ∃ c cs, d = c :: cs := by
    cases d with
    | nil => exact absurd rfl hdne
    | cons c cs => exact ⟨c, cs, rfl⟩
  have hc : isWS c = false := dropWhile_eq_self_head (trimStart_of_trim hd)
  obtain ⟨b, w, hw⟩ : ∃ b w, du.reverse = b :: w := by
    cases h : du.reverse with
    | nil => exact absurd (by simpa using h) hdune
    | cons b w => exact ⟨b, w, rfl⟩
  have hb : isWS b = false := by
    have h1 := dropWhile_reverse_of_trimEnd (trimEnd_of_trim hdu)
    rw [hw] at h1
    exact dropWhile_eq_self_head h1
  have hcd : ¬ (isWS c = true) := by simp [hc]
  have hbd : ¬ (isWS b = true) := by simp [hb]
  have h1 : trimStart ((c :: cs) ++ ' ' :: du) = (c :: cs) ++ ' ' :: du := by
    simp [trimStart, List.dropWhile_cons_of_neg hcd]
  have h2 : trimEnd ((c :: cs) ++ ' ' :: du) = (c :: cs) ++ ' ' :: du := by
    unfold trimEnd
    rw [show ((c :: cs) ++ ' ' :: du).reverse = b :: (w ++ ' ' :: (c :: cs).reverse) by
      simp [List.reverse_append, hw]]
    rw [List.dropWhile_cons_of_neg hbd]
    have := congrArg List.reverse
      (show ((c :: cs) ++ ' ' :: du).reverse = b :: (w ++ ' ' :: (c :: cs).reverse) by
        simp [List.reverse_append, hw])
    simpa using this.symm
  unfold trim
  rw [h1, h2]

theorem takeWhile_period (rest : Str) :
    ∀ pre : Str, (∀ c ∈ pre, c ≠ '.') →
      (pre ++ '.' :: rest).takeWhile (· ≠ '.') = pre ∧
      (pre ++ '.' :: rest).dropWhile (· ≠ '.') = '.' :: rest := by
  intro pre
  induction pre with
  | nil => simp [List.takeWhile, List.dropWhile]
  | cons c pre' ih =>
    intro h
    have hc : c ≠ '.' := h c (List.mem_cons_self c pre')
    have h' := ih fun d hd => h d (List.mem_cons_of_mem _ hd)
    constructor
    · rw [List.cons_append, List.takeWhile_cons_of_pos (by simp [hc]), h'.1]
    · rw [List.cons_append, List.dropWhile_cons_of_pos (by simp [hc])]
      exact h'.2

/-- Witness for C8 at concrete inputs: the edited text drops the
time-of-day line, and the structure keeps the previous one. -/
theorem handleInstructionChange_preserves_witness :
    (handleInstructionChange sampleStructure (str "Panado\nnote")).userContent =
      (parseInstructionContent (str "Panado\nnote")).userContent ∧
    (handleInstructionChange sampleStructure (str "Panado\nnote")).sections.timeOfDay =
      sampleStructure.sections.timeOfDay :=
  ⟨(handleInstructionChange_preserves sampleStructure (str "Panado\nnote")).1, by
    have h := (handleInstructionChange_preserves sampleStructure
      (str "Panado\nnote")).2.1 Sections.timeOfDay (by simp)
    rw [h]
    decide⟩

theorem parseLine_capture_name (st : ParseState) (m : Str)
    (hc : st.cursor = .beforeMedication) (hf : st.medicationNameFound = false)
    (hm : trim m = m) (hne : m ≠ []) :
    parseLine st m =
      { st with
        struct.sections.medicationName := m
        medicationNameFound := true
        cursor := .afterMedication } := by
  simp only [parseLine, hm]
  rw [if_pos hne, if_pos ⟨by simp [hf], hc⟩]

theorem parseLine_capture_time (st : ParseState) (t : Str)
    (hf : st.medicationNameFound = true) (ht : trim t = t) (hne : t ≠ [])
    (hclock : clockMarker.isPrefixOf t = true)
    (hinfo : ¬ (infoMarker.isPrefixOf t = true)) :
    parseLine st t =
      { st with struct.sections.timeOfDay := t, cursor := .afterTimeOfDay } := by
  simp only [parseLine, ht]
  rw [if_pos hne, if_neg (by simp [hf]), if_neg hinfo, if_pos hclock]

theorem parseLine_capture_header (st : ParseState) (h : Str)
    (hf : st.medicationNameFound = true) (ht : trim h = h) (hne : h ≠ [])
    (hhead : isPrecautionsHeader h = true)
    (hinfo : ¬ (infoMarker.isPrefixOf h = true))
    (hclock : ¬ (clockMarker.isPrefixOf h = true)) :
    parseLine st h =
      { st with
        struct.sections.precautionsHeader := h
        precautionsStarted := true
        cursor := .precautions } := by
  simp only [parseLine, ht]
  rw [if_pos hne, if_neg (by simp [hf]), if_neg hinfo, if_neg hclock, if_pos hhead]

theorem parse_fold_bullets (P : List Str) :
    ∀ st : ParseState, st.medicationNameFound = true → st.precautionsStarted = true →
      (∀ p ∈ P, BulletOK p) →
      List.foldl parseLine st P =
        { st with struct.sections.precautionsList :=
            (st.struct.sections.precautionsList ++ P) } := by
  induction P with
  | nil => intro st _ _ _; simp
  | cons p P ih =>
    intro st hf hps hP
    obtain ⟨hne, htr, _, hbul, hinfo, hclock, hhead⟩ := hP p (List.mem_cons_self p P)
    have hstep : parseLine st p =
        { st with struct.sections.precautionsList :=
            (st.struct.sections.precautionsList ++ [p]) } := by
      simp only [parseLine, htr]
      rw [if_pos hne, if_neg (by simp [hf]), if_neg hinfo, if_neg hclock,
        if_neg hhead, if_pos ⟨hps, hbul⟩]
    rw [List.foldl_cons, hstep,
      ih _ (by simp [hf]) (by simp [hps]) (fun q hq => hP q (List.mem_cons_of_mem _ hq))]
    simp


theorem parseLine_capture_dosage_inline (st : ParseState) (d du : Str)
    (hf : st.medicationNameFound = true)
    (htd : trim d = d) (hdne : d ≠ [])
    (hinfo : infoMarker.isPrefixOf d = true)
    (hperiod : d.dropWhile (· ≠ '.') = ['.'])
    (htu : trim du = du) (hdune : du ≠ []) :
    parseLine st (d ++ ' ' :: du) =
      { st with
        struct.sections.dosageLine := d
        struct.sections.dosageLineUserContent := du
        cursor := .afterDosage } := by
  have hL : trim (d ++ ' ' :: du) = d ++ ' ' :: du := trim_fixed_append htd hdne htu hdune
  have hpre : ∀ c ∈ d.takeWhile (· ≠ '.'), c ≠ '.' := by
    intro c hcmem
    simpa using List.mem_takeWhile_imp hcmem
  have hdec : d = d.takeWhile (· ≠ '.') ++ ['.'] := by
    conv_lhs => rw [← List.takeWhile_append_dropWhile (p := fun x => decide (x ≠ '.')) (l := d)]
    rw [hperiod]
  have hassoc : d ++ ' ' :: du = d.takeWhile (· ≠ '.') ++ '.' :: (' ' :: du) := by
    conv_lhs => rw [hdec]
    simp
  have hsplit := takeWhile_period (' ' :: du) (d.takeWhile (· ≠ '.')) hpre
  have htake : (d ++ ' ' :: du).takeWhile (· ≠ '.') = d.takeWhile (· ≠ '.') := by
    rw [hassoc]; exact hsplit.1
  have hdrop : (d ++ ' ' :: du).dropWhile (· ≠ '.') = '.' :: (' ' :: du) := by
    rw [hassoc]; exact hsplit.2
  have hinfoL : infoMarker.isPrefixOf (d ++ ' ' :: du) = true := by
    rw [List.isPrefixOf_iff_prefix] at hinfo ⊢
    exact hinfo.trans (List.prefix_append d (' ' :: du))
  have hws : isWS ' ' = true := by decide
  have hts : trimStart (' ' :: du) = du := by
    unfold trimStart
    rw [List.dropWhile_cons_of_pos hws]
    exact trimStart_of_trim htu
  have hLne : d ++ ' ' :: du ≠ [] := by simp
  simp only [parseLine, hL]
  rw [if_pos hLne, if_neg (by simp [hf]), if_pos hinfoL]
  simp only [htake, hdrop, hts]
  rw [if_pos hdune, ← hdec]

theorem parseLine_capture_dosage_plain (st : ParseState) (d : Str)
    (hf : st.medicationNameFound = true)
    (htd : trim d = d) (hdne : d ≠ [])
    (hinfo : infoMarker.isPrefixOf d = true)
    (hperiod : d.dropWhile (· ≠ '.') = ['.'] ∨ d.dropWhile (· ≠ '.') = []) :
    parseLine st d =
      { st with
        struct.sections.dosageLine := d
        cursor := .afterDosage } := by
  rcases hperiod with hp | hp
  · have hpre : ∀ c ∈ d.takeWhile (· ≠ '.'), c ≠ '.' := by
      intro c hcmem
      simpa using List.mem_takeWhile_imp hcmem
    have hdec : d = d.takeWhile (· ≠ '.') ++ ['.'] := by
      conv_lhs => rw [← List.takeWhile_append_dropWhile (p := fun x => decide (x ≠ '.')) (l := d)]
      rw [hp]
    simp only [parseLine, htd]
    rw [if_pos hdne, if_neg (by simp [hf]), if_pos hinfo]
    simp only [hp]
    rw [if_neg (show ¬(trimStart ([] : Str) ≠ []) by simp [trimStart]), ← hdec]
  · simp only [parseLine, htd]
    rw [if_pos hdne, if_neg (by simp [hf]), if_pos hinfo]
    simp only [hp]

theorem endsWith_nl_of_noNL {x : Str} (h : noNL x) : endsWithB ['\n'] x = false := by
  cases hx : x.reverse with
  | nil => simp [endsWithB, List.isSuffixOf, hx, List.isPrefixOf]
  | cons b w =>
    have hb : b ∈ x := by
      have : b ∈ x.reverse := by rw [hx]; exact List.mem_cons_self b w
      simpa using this
    have hbn : b ≠ '\n' := h b hb
    simp [endsWithB, List.isSuffixOf, hx, List.isPrefixOf, Ne.symm hbn]

theorem exists_of_endsWith {x : Str} {a : Char} (h : endsWithB [a] x = true) :
    ∃ Y, x = Y ++ [a] := by
  rw [endsWithB, List.isSuffixOf_iff_suffix] at h
  obtain ⟨Y, hY⟩ := h
  exact ⟨Y, hY.symm⟩

theorem noNL_append {x y : Str} (hx : noNL x) (hy : noNL y) : noNL (x ++ y) := by
  intro c hc
  rcases List.mem_append.mp hc with h | h
  · exact hx c h
  · exact hy c h

theorem splitNL_slot_chunk (x rest : Str) :
    splitNL ((if x = [] then [] else x ++ ['\n']) ++ rest) =
      (if x = [] then [] else splitNL x) ++ splitNL rest := by
  by_cases h : x = []
  · simp [h]
  · rw [if_neg h, if_neg h, show (x ++ ['\n']) ++ rest = x ++ '\n' :: rest by simp,
      splitNL_append]

theorem splitNL_at_chunk (x rest : Str) :
    splitNL ((if x = [] then [] else x) ++ '\n' :: rest) =
      (if x = [] then [[]] else splitNL x) ++ splitNL rest := by
  by_cases h : x = []
  · simp [h, splitNL]
  · rw [if_neg h, if_neg h, splitNL_append]

theorem splitNL_bullets (ap : Str) :
    ∀ P : List Str, (∀ p ∈ P, noNL p) →
      splitNL ((P.map (fun p => p ++ ['\n'])).flatten ++ ap) = P ++ splitNL ap := by
  intro P
  induction P with
  | nil => intro _; simp
  | cons p P ih =>
    intro h
    have hp := h p (List.mem_cons_self p P)
    have h' := ih fun q hq => h q (List.mem_cons_of_mem _ hq)
    rw [List.map_cons, List.flatten_cons,
      show ((p ++ ['\n']) ++ (P.map (fun q => q ++ ['\n'])).flatten) ++ ap =
        p ++ '\n' :: ((P.map (fun q => q ++ ['\n'])).flatten ++ ap) by simp,
      splitNL_append, splitNL_noNL p hp, h']
    simp


theorem lines_of_reconstruct (s : InstructionStructure) (hcon : Consistent s) :
    splitNL (reconstructInstructionContent s) = consistentLines s := by
  unfold Consistent at hcon
  obtain ⟨hlg, ⟨hm, hmt, hmn⟩, ⟨hdne, hdt, hdn, hdi, hdp⟩, hduo,
    ⟨htne, htt, htn, htc, htineg⟩, ⟨hhne, hht, hhn, hhh, hhineg, hhcneg⟩,
    hPok, ⟨hbB, hbS⟩, ⟨hamL, hamS⟩, ⟨hadL, hadS⟩, ⟨hatL, hatS⟩, ⟨hapL, hapS⟩⟩ := hcon
  have e1 : reconC1 s = (if s.userContent.beforeMedication = [] then []
      else s.userContent.beforeMedication ++ ['\n']) := by
    by_cases hb0 : s.userContent.beforeMedication = []
    · rw [reconC1, if_neg (by simp [hb0]), if_pos hb0]
    · rcases hbS with h | ⟨_, hbe⟩
      · exact absurd h hb0
      rw [reconC1, if_pos hb0, if_pos ⟨by simp [hbe], hm⟩, if_neg hb0]
  have e2 : reconC2 s = reconC1 s ++ s.sections.medicationName ++ ['\n'] := by
    rw [reconC2, if_pos hm, if_pos (Or.inr hdne)]
  have e3 : reconC3 s = reconC2 s ++ (if s.userContent.afterMedication = [] then []
      else s.userContent.afterMedication ++ ['\n']) := by
    by_cases ham0 : s.userContent.afterMedication = []
    · rw [reconC3, if_neg (by simp [ham0]), if_pos ham0]
      simp
    · rcases hamS with h | ⟨_, hame⟩
      · exact absurd h ham0
      rw [reconC3, if_pos ham0, if_pos ⟨by simp [hame], hdne⟩, if_neg ham0]
      simp
  have e4 : reconC4 s = reconC3 s ++ (s.sections.dosageLine ++
      (if s.sections.dosageLineUserContent ≠ []
       then [' '] ++ s.sections.dosageLineUserContent else [])) ++ ['\n'] := by
    rw [reconC4, if_pos hdne, if_pos (Or.inr htne)]
    simp [List.append_assoc]
  have e5 : reconC5 s = reconC4 s ++ (if s.userContent.afterDosage = [] then []
      else s.userContent.afterDosage ++ ['\n']) := by
    by_cases had0 : s.userContent.afterDosage = []
    · rw [reconC5, if_neg (by simp [had0]), if_pos had0]
      simp
    · rcases hadS with h | ⟨_, hade⟩
      · exact absurd h had0
      rw [reconC5, if_pos had0, if_pos ⟨by simp [hade], htne⟩, if_neg had0]
      simp
  have e6 : reconC6 s = reconC5 s ++ s.sections.timeOfDay ++ ['\n'] := by
    rw [reconC6, if_pos htne, if_pos (Or.inr (Or.inl hhne))]
  have e7 : reconC7 s = reconC6 s ++ (if s.userContent.afterTimeOfDay = [] then []
      else s.userContent.afterTimeOfDay) := by
    by_cases hat0 : s.userContent.afterTimeOfDay = []
    · rw [reconC7, if_neg (by simp [hat0]), if_pos hat0]
      simp
    · rcases hatS with h | ⟨hathead, hatend, hatend2⟩
      · exact absurd h hat0
      rw [reconC7, if_pos hat0, if_neg (by simp [hatend]), if_neg hat0]
      simp
  have hc7ne : reconC7 s ≠ [] := by
    rw [e7, e6]
    simp [List.append_eq_nil]
  have hce2 : endsWithB ['\n', '\n'] (reconC7 s) = false := by
    rw [e7, e6]
    by_cases hat0 : s.userContent.afterTimeOfDay = []
    · rw [if_pos hat0, List.append_nil,
        show reconC5 s ++ s.sections.timeOfDay ++ ['\n'] =
          (reconC5 s ++ s.sections.timeOfDay) ++ ['\n'] by simp,
        show (['\n', '\n'] : Str) = ['\n'] ++ ['\n'] from rfl,
        endsWithB_append_singleton,
        endsWithB_append_of_ne_nil _ _ _ htne, endsWith_nl_of_noNL htn]
    · rcases hatS with h | ⟨hathead, hatend, hatend2⟩
      · exact absurd h hat0
      obtain ⟨Y, hY⟩ := exists_of_endsWith hatend
      have hYne : Y ≠ [] := by
        intro h0
        rw [hY, h0] at hathead
        simp at hathead
      have hYe : endsWithB ['\n'] Y = false := by
        rw [hY, show (['\n', '\n'] : Str) = ['\n'] ++ ['\n'] from rfl,
          endsWithB_append_singleton] at hatend2
        exact hatend2
      rw [if_neg hat0, hY,
        show reconC5 s ++ s.sections.timeOfDay ++ ['\n'] ++ (Y ++ ['\n']) =
          (reconC5 s ++ s.sections.timeOfDay ++ ['\n'] ++ Y) ++ ['\n'] by simp,
        show (['\n', '\n'] : Str) = ['\n'] ++ ['\n'] from rfl,
        endsWithB_append_singleton,
        show reconC5 s ++ s.sections.timeOfDay ++ ['\n'] ++ Y =
          (reconC5 s ++ s.sections.timeOfDay ++ ['\n']) ++ Y by simp,
        endsWithB_append_of_ne_nil _ _ _ hYne, hYe]
  have e8 : reconC8 s = reconC7 s ++ ['\n'] ++ s.sections.precautionsHeader ++ ['\n'] ++
      (s.sections.precautionsList.map (fun p => p ++ ['\n'])).flatten := by
    rw [reconC8, if_pos (Or.inl hhne), if_pos ⟨hc7ne, by simp [hce2]⟩, if_pos hhne]
    simp [List.append_assoc]
  have hdli : noNL (s.sections.dosageLine ++
      (if s.sections.dosageLineUserContent ≠ []
       then [' '] ++ s.sections.dosageLineUserContent else [])) := by
    rcases hduo with hdu0 | ⟨_, hdun⟩
    · rw [hdu0]
      simpa using hdn
    · by_cases hdu1 : s.sections.dosageLineUserContent = []
      · rw [if_neg (by simp [hdu1])]
        simpa using hdn
      · rw [if_pos hdu1]
        exact noNL_append hdn (by
          intro c hc
          rcases List.mem_cons.mp hc with rfl | hc2
          · simp
          · exact hdun c hc2)
  have hPn : ∀ p ∈ s.sections.precautionsList, noNL p := fun p hp => (hPok p hp).2.2.1
  have hT : reconstructInstructionContent s =
      (if s.userContent.beforeMedication = [] then []
       else s.userContent.beforeMedication ++ ['\n']) ++
      (s.sections.medicationName ++ '\n' ::
        ((if s.userContent.afterMedication = [] then []
          else s.userContent.afterMedication ++ ['\n']) ++
         ((s.sections.dosageLine ++
            (if s.sections.dosageLineUserContent ≠ []
             then [' '] ++ s.sections.dosageLineUserContent else [])) ++ '\n' ::
           ((if s.userContent.afterDosage = [] then []
             else s.userContent.afterDosage ++ ['\n']) ++
            (s.sections.timeOfDay ++ '\n' ::
              ((if s.userContent.afterTimeOfDay = [] then []
                else s.userContent.afterTimeOfDay) ++ '\n' ::
                (s.sections.precautionsHeader ++ '\n' ::
                  ((s.sections.precautionsList.map (fun p => p ++ ['\n'])).flatten ++
                    s.userContent.afterPrecautions)))))))) := by
    rw [reconstructInstructionContent, e8, e7, e6, e5, e4, e3, e2, e1]
    simp only [List.append_assoc, List.cons_append, List.singleton_append,
      List.nil_append, List.append_nil]
  rw [hT, splitNL_slot_chunk, splitNL_append, splitNL_noNL _ hmn,
    splitNL_slot_chunk, splitNL_append, splitNL_noNL _ hdli,
    splitNL_slot_chunk, splitNL_append, splitNL_noNL _ htn,
    splitNL_at_chunk, splitNL_append, splitNL_noNL _ hhn,
    splitNL_bullets _ _ hPn]
  rw [consistentLines]
  simp [List.append_assoc]


/-- C1: For every consistent instruction structure - one whose five generated
sections are populated with their markers as trimmed single lines, whose dosage
line carries a single terminating period, and whose user-content slots have the
shapes the reconstruction emits - parsing the reconstructed text recovers the
exact original structure: the parse of the reconstruction is the identity. -/
theorem parse_reconstruct_roundtrip (s : InstructionStructure) (hcon : Consistent s) :
    parseInstructionContent (reconstructInstructionContent s) = s := by
  have hlines := lines_of_reconstruct s hcon
  unfold Consistent at hcon
  obtain ⟨hlg, ⟨hm, hmt, hmn⟩, ⟨hdne, hdt, hdn, hdi, hdp⟩, hduo,
    ⟨htne, htt, htn, htc, htineg⟩, ⟨hhne, hht, hhn, hhh, hhineg, hhcneg⟩,
    hPok, ⟨hbB, hbS⟩, ⟨hamL, hamS⟩, ⟨hadL, hadS⟩, ⟨hatL, hatS⟩, ⟨hapL, hapS⟩⟩ := hcon
  have h1 : List.foldl parseLine initParseState
      (if s.userContent.beforeMedication = [] then []
       else splitNL s.userContent.beforeMedication) =
      { struct :=
          { sections :=
              { medicationName := ([] : Str)
                dosageLine := ([] : Str)
                dosageLineUserContent := ([] : Str)
                timeOfDay := ([] : Str)
                precautionsHeader := ([] : Str)
                precautionsList := ([] : List Str) }
            userContent :=
              { beforeMedication := s.userContent.beforeMedication
                afterMedication := ([] : Str)
                afterDosage := ([] : Str)
                afterTimeOfDay := ([] : Str)
                afterPrecautions := ([] : Str) }
            lastGenerated := { english := [], translated := [] } }
        cursor := .beforeMedication
        medicationNameFound := false
        precautionsStarted := false } := by
    by_cases hb0 : s.userContent.beforeMedication = []
    · rw [if_pos hb0, List.foldl_nil, hb0]
      rfl
    · rcases hbS with h | ⟨hbh, _⟩
      · exact absurd h hb0
      rw [if_neg hb0,
        parse_fold_passthrough _ initParseState (by intro h; cases h)
          (fun l hl => Or.inl (hbB l hl))]
      simp only [initParseState, emptyStructure, emptyUserContent, emptySections, getSlot]
      rw [foldl_appendJoin_splitNL _ hbh]
      rfl
  have h2 : parseLine
      { struct :=
          { sections :=
              { medicationName := ([] : Str)
                dosageLine := ([] : Str)
                dosageLineUserContent := ([] : Str)
                timeOfDay := ([] : Str)
                precautionsHeader := ([] : Str)
                precautionsList := ([] : List Str) }
            userContent :=
              { beforeMedication := s.userContent.beforeMedication
                afterMedication := ([] : Str)
                afterDosage := ([] : Str)
                afterTimeOfDay := ([] : Str)
                afterPrecautions := ([] : Str) }
            lastGenerated := { english := [], translated := [] } }
        cursor := .beforeMedication
        medicationNameFound := false
        precautionsStarted := false }
      s.sections.medicationName =
      { struct :=
          { sections :=
              { medicationName := s.sections.medicationName
                dosageLine := ([] : Str)
                dosageLineUserContent := ([] : Str)
                timeOfDay := ([] : Str)
                precautionsHeader := ([] : Str)
                precautionsList := ([] : List Str) }
            userContent :=
              { beforeMedication := s.userContent.beforeMedication
                afterMedication := ([] : Str)
                afterDosage := ([] : Str)
                afterTimeOfDay := ([] : Str)
                afterPrecautions := ([] : Str) }
            lastGenerated := { english := [], translated := [] } }
        cursor := .afterMedication
        medicationNameFound := true
        precautionsStarted := false } := by
    rw [parseLine_capture_name _ _ rfl rfl hmt hm]
  have h3 : List.foldl parseLine
      { struct :=
          { sections :=
              { medicationName := s.sections.medicationName
                dosageLine := ([] : Str)
                dosageLineUserContent := ([] : Str)
                timeOfDay := ([] : Str)
                precautionsHeader := ([] : Str)
                precautionsList := ([] : List Str) }
            userContent :=
              { beforeMedication := s.userContent.beforeMedication
                afterMedication := ([] : Str)
                afterDosage := ([] : Str)
                afterTimeOfDay := ([] : Str)
                afterPrecautions := ([] : Str) }
            lastGenerated := { english := [], translated := [] } }
        cursor := .afterMedication
        medicationNameFound := true
        precautionsStarted := false }
      (if s.userContent.afterMedication = [] then [] else splitNL s.userContent.afterMedication) =
      { struct :=
          { sections :=
              { medicationName := s.sections.medicationName
                dosageLine := ([] : Str)
                dosageLineUserContent := ([] : Str)
                timeOfDay := ([] : Str)
                precautionsHeader := ([] : Str)
                precautionsList := ([] : List Str) }
            userContent :=
              { beforeMedication := s.userContent.beforeMedication
                afterMedication := s.userContent.afterMedication
                afterDosage := ([] : Str)
                afterTimeOfDay := ([] : Str)
                afterPrecautions := ([] : Str) }
            lastGenerated := { english := [], translated := [] } }
        cursor := .afterMedication
        medicationNameFound := true
        precautionsStarted := false } := by
    by_cases ham0 : s.userContent.afterMedication = []
    · rw [if_pos ham0, List.foldl_nil, ham0]
    · rcases hamS with h | ⟨hamh, _⟩
      · exact absurd h ham0
      rw [if_neg ham0,
        parse_fold_passthrough _ _ (by intro h; cases h)
          (fun l hl => Or.inr ⟨by simp, (hamL l hl).1.1, (hamL l hl).1.2.1,
            (hamL l hl).1.2.2, by simp⟩)]
      simp only [getSlot]
      rw [foldl_appendJoin_splitNL _ hamh]
      rfl
  have h4 : parseLine
      { struct :=
          { sections :=
              { medicationName := s.sections.medicationName
                dosageLine := ([] : Str)
                dosageLineUserContent := ([] : Str)
                timeOfDay := ([] : Str)
                precautionsHeader := ([] : Str)
                precautionsList := ([] : List Str) }
            userContent :=
              { beforeMedication := s.userContent.beforeMedication
                afterMedication := s.userContent.afterMedication
                afterDosage := ([] : Str)
                afterTimeOfDay := ([] : Str)
                afterPrecautions := ([] : Str) }
            lastGenerated := { english := [], translated := [] } }
        cursor := .afterMedication
        medicationNameFound := true
        precautionsStarted := false }
      (s.sections.dosageLine ++ (if s.sections.dosageLineUserContent ≠ [] then [' '] ++ s.sections.dosageLineUserContent else [])) =
      { struct :=
          { sections :=
              { medicationName := s.sections.medicationName
                dosageLine := s.sections.dosageLine
                dosageLineUserContent := s.sections.dosageLineUserContent
                timeOfDay := ([] : Str)
                precautionsHeader := ([] : Str)
                precautionsList := ([] : List Str) }
            userContent :=
              { beforeMedication := s.userContent.beforeMedication
                afterMedication := s.userContent.afterMedication
                afterDosage := ([] : Str)
                afterTimeOfDay := ([] : Str)
                afterPrecautions := ([] : Str) }
            lastGenerated := { english := [], translated := [] } }
        cursor := .afterDosage
        medicationNameFound := true
        precautionsStarted := false } := by
    by_cases hdu1 : s.sections.dosageLineUserContent = []
    · rw [if_neg (by simp [hdu1]), List.append_nil]
      have hperiod : s.sections.dosageLine.dropWhile (· ≠ '.') = ['.'] ∨ s.sections.dosageLine.dropWhile (· ≠ '.') = [] := by
        rcases hdp with h | ⟨h, _⟩
        · exact Or.inl h
        · exact Or.inr h
      rw [parseLine_capture_dosage_plain _ _ rfl hdt hdne hdi hperiod, hdu1]
    · rcases hduo with h | ⟨hdut, _⟩
      · exact absurd h hdu1
      have hperiod : s.sections.dosageLine.dropWhile (· ≠ '.') = ['.'] := by
        rcases hdp with h | ⟨_, h2⟩
        · exact h
        · exact absurd h2 hdu1
      rw [if_pos hdu1,
        show ([' '] : Str) ++ s.sections.dosageLineUserContent = ' ' :: s.sections.dosageLineUserContent from rfl,
        parseLine_capture_dosage_inline _ _ _ rfl hdt hdne hdi hperiod hdut hdu1]
  have h5 : List.foldl parseLine
      { struct :=
          { sections :=
              { medicationName := s.sections.medicationName
                dosageLine := s.sections.dosageLine
                dosageLineUserContent := s.sections.dosageLineUserContent
                timeOfDay := ([] : Str)
                precautionsHeader := ([] : Str)
                precautionsList := ([] : List Str) }
            userContent :=
              { beforeMedication := s.userContent.beforeMedication
                afterMedication := s.userContent.afterMedication
                afterDosage := ([] : Str)
                afterTimeOfDay := ([] : Str)
                afterPrecautions := ([] : Str) }
            lastGenerated := { english := [], translated := [] } }
        cursor := .afterDosage
        medicationNameFound := true
        precautionsStarted := false }
      (if s.userContent.afterDosage = [] then [] else splitNL s.userContent.afterDosage) =
      { struct :=
          { sections :=
              { medicationName := s.sections.medicationName
                dosageLine := s.sections.dosageLine
                dosageLineUserContent := s.sections.dosageLineUserContent
                timeOfDay := ([] : Str)
                precautionsHeader := ([] : Str)
                precautionsList := ([] : List Str) }
            userContent :=
              { beforeMedication := s.userContent.beforeMedication
                afterMedication := s.userContent.afterMedication
                afterDosage := s.userContent.afterDosage
                afterTimeOfDay := ([] : Str)
                afterPrecautions := ([] : Str) }
            lastGenerated := { english := [], translated := [] } }
        cursor := .afterDosage
        medicationNameFound := true
        precautionsStarted := false } := by
    by_cases had0 : s.userContent.afterDosage = []
    · rw [if_pos had0, List.foldl_nil, had0]
    · rcases hadS with h | ⟨hadh, _⟩
      · exact absurd h had0
      rw [if_neg had0,
        parse_fold_passthrough _ _ (by intro h; cases h)
          (fun l hl => Or.inr ⟨by simp, (hadL l hl).1.1, (hadL l hl).1.2.1,
            (hadL l hl).1.2.2, by simp⟩)]
      simp only [getSlot]
      rw [foldl_appendJoin_splitNL _ hadh]
      rfl
  have h6 : parseLine
      { struct :=
          { sections :=
              { medicationName := s.sections.medicationName
                dosageLine := s.sections.dosageLine
                dosageLineUserContent := s.sections.dosageLineUserContent
                timeOfDay := ([] : Str)
                precautionsHeader := ([] : Str)
                precautionsList := ([] : List Str) }
            userContent :=
              { beforeMedication := s.userContent.beforeMedication
                afterMedication := s.userContent.afterMedication
                afterDosage := s.userContent.afterDosage
                afterTimeOfDay := ([] : Str)
                afterPrecautions := ([] : Str) }
            lastGenerated := { english := [], translated := [] } }
        cursor := .afterDosage
        medicationNameFound := true
        precautionsStarted := false }
      s.sections.timeOfDay =
      { struct :=
          { sections :=
              { medicationName := s.sections.medicationName
                dosageLine := s.sections.dosageLine
                dosageLineUserContent := s.sections.dosageLineUserContent
                timeOfDay := s.sections.timeOfDay
                precautionsHeader := ([] : Str)
                precautionsList := ([] : List Str) }
            userContent :=
              { beforeMedication := s.userContent.beforeMedication
                afterMedication := s.userContent.afterMedication
                afterDosage := s.userContent.afterDosage
                afterTimeOfDay := ([] : Str)
                afterPrecautions := ([] : Str) }
            lastGenerated := { english := [], translated := [] } }
        cursor := .afterTimeOfDay
        medicationNameFound := true
        precautionsStarted := false } := by
    rw [parseLine_capture_time _ _ rfl htt htne htc htineg]
  have h7 : List.foldl parseLine
      { struct :=
          { sections :=
              { medicationName := s.sections.medicationName
                dosageLine := s.sections.dosageLine
                dosageLineUserContent := s.sections.dosageLineUserContent
                timeOfDay := s.sections.timeOfDay
                precautionsHeader := ([] : Str)
                precautionsList := ([] : List Str) }
            userContent :=
              { beforeMedication := s.userContent.beforeMedication
                afterMedication := s.userContent.afterMedication
                afterDosage := s.userContent.afterDosage
                afterTimeOfDay := ([] : Str)
                afterPrecautions := ([] : Str) }
            lastGenerated := { english := [], translated := [] } }
        cursor := .afterTimeOfDay
        medicationNameFound := true
        precautionsStarted := false }
      (if s.userContent.afterTimeOfDay = [] then [[]] else splitNL s.userContent.afterTimeOfDay) =
      { struct :=
          { sections :=
              { medicationName := s.sections.medicationName
                dosageLine := s.sections.dosageLine
                dosageLineUserContent := s.sections.dosageLineUserContent
                timeOfDay := s.sections.timeOfDay
                precautionsHeader := ([] : Str)
                precautionsList := ([] : List Str) }
            userContent :=
              { beforeMedication := s.userContent.beforeMedication
                afterMedication := s.userContent.afterMedication
                afterDosage := s.userContent.afterDosage
                afterTimeOfDay := s.userContent.afterTimeOfDay
                afterPrecautions := ([] : Str) }
            lastGenerated := { english := [], translated := [] } }
        cursor := .afterTimeOfDay
        medicationNameFound := true
        precautionsStarted := false } := by
    by_cases hat0 : s.userContent.afterTimeOfDay = []
    · rw [if_pos hat0]
      simp only [List.foldl_cons, List.foldl_nil]
      rw [hat0]
      rfl
    · rcases hatS with h | ⟨hath, _, _⟩
      · exact absurd h hat0
      rw [if_neg hat0,
        parse_fold_passthrough _ _ (by intro h; cases h)
          (fun l hl => Or.inr ⟨by simp, (hatL l hl).1, (hatL l hl).2.1,
            (hatL l hl).2.2, by simp⟩)]
      simp only [getSlot]
      rw [foldl_appendJoin_splitNL _ hath]
      rfl
  have h8 : parseLine
      { struct :=
          { sections :=
              { medicationName := s.sections.medicationName
                dosageLine := s.sections.dosageLine
                dosageLineUserContent := s.sections.dosageLineUserContent
                timeOfDay := s.sections.timeOfDay
                precautionsHeader := ([] : Str)
                precautionsList := ([] : List Str) }
            userContent :=
              { beforeMedication := s.userContent.beforeMedication
                afterMedication := s.userContent.afterMedication
                afterDosage := s.userContent.afterDosage
                afterTimeOfDay := s.userContent.afterTimeOfDay
                afterPrecautions := ([] : Str) }
            lastGenerated := { english := [], translated := [] } }
        cursor := .afterTimeOfDay
        medicationNameFound := true
        precautionsStarted := false }
      s.sections.precautionsHeader =
      { struct :=
          { sections :=
              { medicationName := s.sections.medicationName
                dosageLine := s.sections.dosageLine
                dosageLineUserContent := s.sections.dosageLineUserContent
                timeOfDay := s.sections.timeOfDay
                precautionsHeader := s.sections.precautionsHeader
                precautionsList := ([] : List Str) }
            userContent :=
              { beforeMedication := s.userContent.beforeMedication
                afterMedication := s.userContent.afterMedication
                afterDosage := s.userContent.afterDosage
                afterTimeOfDay := s.userContent.afterTimeOfDay
                afterPrecautions := ([] : Str) }
            lastGenerated := { english := [], translated := [] } }
        cursor := .precautions
        medicationNameFound := true
        precautionsStarted := true } := by
    rw [parseLine_capture_header _ _ rfl hht hhne hhh hhineg hhcneg]
  have h9 : List.foldl parseLine
      { struct :=
          { sections :=
              { medicationName := s.sections.medicationName
                dosageLine := s.sections.dosageLine
                dosageLineUserContent := s.sections.dosageLineUserContent
                timeOfDay := s.sections.timeOfDay
                precautionsHeader := s.sections.precautionsHeader
                precautionsList := ([] : List Str) }
            userContent :=
              { beforeMedication := s.userContent.beforeMedication
                afterMedication := s.userContent.afterMedication
                afterDosage := s.userContent.afterDosage
                afterTimeOfDay := s.userContent.afterTimeOfDay
                afterPrecautions := ([] : Str) }
            lastGenerated := { english := [], translated := [] } }
        cursor := .precautions
        medicationNameFound := true
        precautionsStarted := true }
      s.sections.precautionsList =
      { struct :=
          { sections :=
              { medicationName := s.sections.medicationName
                dosageLine := s.sections.dosageLine
                dosageLineUserContent := s.sections.dosageLineUserContent
                timeOfDay := s.sections.timeOfDay
                precautionsHeader := s.sections.precautionsHeader
                precautionsList := s.sections.precautionsList }
            userContent :=
              { beforeMedication := s.userContent.beforeMedication
                afterMedication := s.userContent.afterMedication
                afterDosage := s.userContent.afterDosage
                afterTimeOfDay := s.userContent.afterTimeOfDay
                afterPrecautions := ([] : Str) }
            lastGenerated := { english := [], translated := [] } }
        cursor := .precautions
        medicationNameFound := true
        precautionsStarted := true } := by
    rw [parse_fold_bullets _ _ rfl rfl hPok]
    rfl
  have h10 : List.foldl parseLine
      { struct :=
          { sections :=
              { medicationName := s.sections.medicationName
                dosageLine := s.sections.dosageLine
                dosageLineUserContent := s.sections.dosageLineUserContent
                timeOfDay := s.sections.timeOfDay
                precautionsHeader := s.sections.precautionsHeader
                precautionsList := s.sections.precautionsList }
            userContent :=
              { beforeMedication := s.userContent.beforeMedication
                afterMedication := s.userContent.afterMedication
                afterDosage := s.userContent.afterDosage
                afterTimeOfDay := s.userContent.afterTimeOfDay
                afterPrecautions := ([] : Str) }
            lastGenerated := { english := [], translated := [] } }
        cursor := .precautions
        medicationNameFound := true
        precautionsStarted := true }
      (splitNL s.userContent.afterPrecautions) =
      { struct :=
          { sections :=
              { medicationName := s.sections.medicationName
                dosageLine := s.sections.dosageLine
                dosageLineUserContent := s.sections.dosageLineUserContent
                timeOfDay := s.sections.timeOfDay
                precautionsHeader := s.sections.precautionsHeader
                precautionsList := s.sections.precautionsList }
            userContent :=
              { beforeMedication := s.userContent.beforeMedication
                afterMedication := s.userContent.afterMedication
                afterDosage := s.userContent.afterDosage
                afterTimeOfDay := s.userContent.afterTimeOfDay
                afterPrecautions := s.userContent.afterPrecautions }
            lastGenerated := { english := [], translated := [] } }
        cursor := .precautions
        medicationNameFound := true
        precautionsStarted := true } := by
    have hph : s.userContent.afterPrecautions.head? ≠ some '\n' := by
      rcases hapS with h | ⟨hh, _⟩
      · rw [h]
        simp
      · exact hh
    rw [parse_fold_passthrough _ _ (fun _ => rfl)
      (fun l hl => Or.inr ⟨by simp, (hapL l hl).1.1, (hapL l hl).1.2.1,
        (hapL l hl).1.2.2, by
          rcases (hapL l hl).2 with h | h
          · exact absurd h (by simp)
          · simp [h]⟩)]
    simp only [getSlot]
    rw [foldl_appendJoin_splitNL _ hph]
    rfl
  rw [parseInstructionContent, hlines, consistentLines]
  simp only [List.foldl_append, List.foldl_cons, List.foldl_nil]
  rw [h1, h2, h3, h4, h5, h6, h7, h8, h9, h10, ← hlg]



theorem parse_reconstruct_roundtrip_witness :
    Consistent sampleStructure ∧
      parseInstructionContent (reconstructInstructionContent sampleStructure) = sampleStructure :=
  ⟨by decide, parse_reconstruct_roundtrip sampleStructure (by decide)⟩

end MzansiMed
